import Mathlib

/-!
# Verification of the experience-layer knowledge lifecycle engine

A shallow embedding of the experience-layer repository (TypeScript) in Lean 4,
together with proofs about the claims of its specification.

Modelling conventions:

* JavaScript `number` values (64-bit floats) are modelled as real numbers `ℝ`;
  the engine's score formulas are real-number formulas and none of the claims
  concerns float rounding.
* Timestamps are `ℤ` (milliseconds, as produced by `Date.now()`); `now` is an
  explicit parameter wherever the source calls `Date.now()`.
* The SQLite store is modelled as explicit state (`Db`) with lists in rowid
  (insertion) order.  `SELECT ... ORDER BY` is a stable sort, `LIMIT` is
  `List.take`, `LIKE '%x%'` is an ASCII-case-insensitive substring test.
* Structured fields of an episode row (`problem`/`solution`/`metadata`) are
  stored as serialized text exactly as in the source (`JSON.stringify` on
  write, `JSON.parse` on read); both functions are given concrete models over
  a JSON value type and the print→parse round trip is proved.
* Thrown exceptions are modelled by `Option`/`Except` results.
-/

/-! ## Engine constants (src/types.ts) -/

/-- `PATTERN_CONFIG` from src/types.ts. -/
structure PatternConfig where
  minEpisodes : ℕ
  recencyWindowDays : ℕ
  decayConstant : ℝ
  minDiscriminationWeight : ℝ

def PATTERN_CONFIG : PatternConfig :=
  { minEpisodes := 3
    recencyWindowDays := 30
    decayConstant := 0.01
    minDiscriminationWeight := 0.3 }

/-- `UTILITY_WEIGHTS` from src/types.ts. -/
structure UtilityWeights where
  novelty : ℝ
  effectiveness : ℝ
  generalizability : ℝ

def UTILITY_WEIGHTS : UtilityWeights :=
  { novelty := 0.3, effectiveness := 0.5, generalizability := 0.2 }

/-- `CONFIDENCE_THRESHOLDS` from src/types.ts. -/
structure ConfidenceThresholds where
  high : ℝ
  medium : ℝ
  deprecation : ℝ

def CONFIDENCE_THRESHOLDS : ConfidenceThresholds :=
  { high := 0.7, medium := 0.4, deprecation := 0.1 }

/-- Milliseconds per day, `24 * 60 * 60 * 1000`, as a real number. -/
def msPerDay : ℝ := 24 * 60 * 60 * 1000

/-- Milliseconds per day as an integer (for timestamp cutoffs). -/
def msPerDayInt : ℤ := 24 * 60 * 60 * 1000

/-! ## Scoring functions (src/types.ts) -/

/-- `calculateCurrentConfidence` from src/types.ts:
`CF(t) = CF₀ × e^(−k·t)` with `t` the days since `lastValidated`
(`(Date.now() - lastValidated) / (24*60*60*1000)`); `now` stands for
`Date.now()`. -/
noncomputable def calculateCurrentConfidence
    (initialConfidence decayConstant : ℝ) (lastValidated now : ℤ) : ℝ :=
  let daysSinceValidation : ℝ := ((now - lastValidated : ℤ) : ℝ) / msPerDay
  let decayFactor := Real.exp (-decayConstant * daysSinceValidation)
  initialConfidence * decayFactor

/-- `calculateUtilityScore` from src/types.ts:
`U = α·novelty + β·effectiveness + γ·generalizability`. -/
noncomputable def calculateUtilityScore
    (novelty effectiveness generalizability : ℝ) : ℝ :=
  UTILITY_WEIGHTS.novelty * novelty +
  UTILITY_WEIGHTS.effectiveness * effectiveness +
  UTILITY_WEIGHTS.generalizability * generalizability

/-- `calculateDiscriminationWeight` from src/types.ts:
`w = success_rate × frequency_weight × recency_bonus`. -/
noncomputable def calculateDiscriminationWeight
    (timesSucceeded : ℝ) (timesApplied : ℕ) (frequency : ℕ) (lastSeen now : ℤ) : ℝ :=
  let successRate : ℝ := if timesApplied > 0 then timesSucceeded / timesApplied else 0.5
  let frequencyWeight := Real.log (frequency + 1)
  let daysSinceLastSeen : ℝ := ((now - lastSeen : ℤ) : ℝ) / msPerDay
  let recencyBonus := Real.exp (-PATTERN_CONFIG.decayConstant * daysSinceLastSeen)
  successRate * frequencyWeight * recencyBonus

/-- JavaScript `Math.round`: round half toward positive infinity. -/
noncomputable def jsRound (x : ℝ) : ℤ := ⌊x + 1 / 2⌋

/-! ## Claim C6: temporal decay law -/

/-- C6: `currentConfidence(c, k, t) = c·e^(−k·Δdays)` is non-increasing as
`now − t` increases, strictly decreasing in elapsed time when `k > 0` and
`c > 0`, equals `c` exactly when `now = t` (and, for `k > 0`, `c > 0`, only
then). -/
theorem C6_currentConfidence_decay
    (c k : ℝ) (t now₁ now₂ : ℤ) (hc : 0 ≤ c) (hk : 0 ≤ k) :
    (now₁ - t ≤ now₂ - t →
      calculateCurrentConfidence c k t now₂ ≤ calculateCurrentConfidence c k t now₁) ∧
    (0 < k → 0 < c → now₁ - t < now₂ - t →
      calculateCurrentConfidence c k t now₂ < calculateCurrentConfidence c k t now₁) ∧
    calculateCurrentConfidence c k t t = c ∧
    (0 < k → 0 < c →
      (calculateCurrentConfidence c k t now₁ = c ↔ now₁ = t)) := by
  have hday : (0:ℝ) < msPerDay := by norm_num [msPerDay]
  refine ⟨?_, ?_, ?_, ?_⟩
  · intro h
    unfold calculateCurrentConfidence
    apply mul_le_mul_of_nonneg_left _ hc
    apply Real.exp_le_exp.2
    have : ((now₁ - t : ℤ) : ℝ) ≤ ((now₂ - t : ℤ) : ℝ) := by exact_mod_cast h
    have hdiv : ((now₁ - t : ℤ) : ℝ) / msPerDay ≤ ((now₂ - t : ℤ) : ℝ) / msPerDay :=
      (div_le_div_right hday).mpr this
    nlinarith [hdiv]
  · intro hkpos hcpos h
    unfold calculateCurrentConfidence
    apply mul_lt_mul_of_pos_left _ hcpos
    apply Real.exp_lt_exp.2
    have : ((now₁ - t : ℤ) : ℝ) < ((now₂ - t : ℤ) : ℝ) := by exact_mod_cast h
    have hdiv : ((now₁ - t : ℤ) : ℝ) / msPerDay < ((now₂ - t : ℤ) : ℝ) / msPerDay :=
      div_lt_div_of_pos_right this hday
    nlinarith [hdiv]
  · unfold calculateCurrentConfidence
    simp
  · intro hkpos hcpos
    constructor
    · intro h
      unfold calculateCurrentConfidence at h
      simp only at h
      have hcne : c ≠ 0 := ne_of_gt hcpos
      have hexp : Real.exp (-k * (((now₁ - t : ℤ) : ℝ) / msPerDay)) = 1 :=
        mul_left_cancel₀ hcne (h.trans (mul_one c).symm)
      have harg : -k * (((now₁ - t : ℤ) : ℝ) / msPerDay) = 0 := by
        have := Real.exp_eq_exp.mp (hexp.trans Real.exp_zero.symm)
        exact this
      have hkne : k ≠ 0 := ne_of_gt hkpos
      have hdayne : msPerDay ≠ 0 := by norm_num [msPerDay]
      have hz : ((now₁ - t : ℤ) : ℝ) = 0 := by
        rcases mul_eq_zero.mp harg with h' | h'
        · exact absurd (neg_eq_zero.mp h') hkne
        · exact (div_eq_zero_iff.mp h').resolve_right hdayne
      have : (now₁ - t : ℤ) = 0 := by exact_mod_cast hz
      omega
    · rintro rfl
      unfold calculateCurrentConfidence
      simp

/-- Witness for C6 at concrete inputs. -/
theorem C6_currentConfidence_decay_witness :
    (0:ℝ) ≤ 1/2 ∧ (0:ℝ) ≤ 1 ∧
    (((0:ℤ) - 0 ≤ 86400000 - 0 →
        calculateCurrentConfidence (1/2) 1 0 86400000 ≤
          calculateCurrentConfidence (1/2) 1 0 0) ∧
      ((0:ℝ) < 1 → (0:ℝ) < 1/2 → (0:ℤ) - 0 < 86400000 - 0 →
        calculateCurrentConfidence (1/2) 1 0 86400000 <
          calculateCurrentConfidence (1/2) 1 0 0) ∧
      calculateCurrentConfidence (1/2) 1 0 0 = 1/2 ∧
      ((0:ℝ) < 1 → (0:ℝ) < 1/2 →
        (calculateCurrentConfidence (1/2) 1 0 0 = 1/2 ↔ (0:ℤ) = 0))) :=
  ⟨by norm_num, by norm_num,
    C6_currentConfidence_decay (1/2) 1 0 0 86400000 (by norm_num) (by norm_num)⟩

/-! ## Claim C7: utility score -/

/-- C7: for novelty, effectiveness, generalizability in `[0,1]`,
`utilityScore` equals `0.3·n + 0.5·e + 0.2·g` exactly and lies in `[0,1]`. -/
theorem C7_utilityScore_weighted_sum
    (n e g : ℝ) (hn0 : 0 ≤ n) (hn1 : n ≤ 1) (he0 : 0 ≤ e) (he1 : e ≤ 1)
    (hg0 : 0 ≤ g) (hg1 : g ≤ 1) :
    calculateUtilityScore n e g = 0.3 * n + 0.5 * e + 0.2 * g ∧
    0 ≤ calculateUtilityScore n e g ∧ calculateUtilityScore n e g ≤ 1 := by
  unfold calculateUtilityScore UTILITY_WEIGHTS
  norm_num
  constructor <;> nlinarith

/-- Witness for C7 at concrete inputs. -/
theorem C7_utilityScore_weighted_sum_witness :
    calculateUtilityScore 1 (1/2) 0 = 0.3 * 1 + 0.5 * (1/2) + 0.2 * 0 ∧
    0 ≤ calculateUtilityScore 1 (1/2) 0 ∧ calculateUtilityScore 1 (1/2) 0 ≤ 1 :=
  C7_utilityScore_weighted_sum 1 (1/2) 0 (by norm_num) (by norm_num) (by norm_num)
    (by norm_num) (by norm_num) (by norm_num)

/-! ## JSON values and the `JSON.stringify` / `JSON.parse` boundary

The engine stores the structured episode fields (`problem`, `solution`,
`metadata`) as serialized text (`JSON.stringify` on insert, `JSON.parse` on
read).  We model JSON values with numbers restricted to integers (the claims
exercise structure — null leaves, empty arrays, nesting — not float syntax)
and give concrete printer/parser models: the printer follows the JS
serialization (shorthand escapes, `\u00XX` for other control characters,
insertion-order object keys), the parser reads exactly that canonical
grammar.  JS object values have pairwise-distinct keys; `Json.WF` carves out
that fragment. -/

inductive Json where
  | null : Json
  | bool : Bool → Json
  | num : ℤ → Json
  | str : String → Json
  | arr : List Json → Json
  | obj : List (String × Json) → Json
deriving Repr

/-- JavaScript truthiness of a JSON value. -/
def jsTruthy : Json → Bool
  | .null => false
  | .bool b => b
  | .num n => n != 0
  | .str s => s != ""
  | .arr _ => true
  | .obj _ => true

def quoteC : Char := Char.ofNat 34
def backslashC : Char := Char.ofNat 92
def lbrackC : Char := Char.ofNat 91
def rbrackC : Char := Char.ofNat 93
def lbraceC : Char := Char.ofNat 123
def rbraceC : Char := Char.ofNat 125
def commaC : Char := Char.ofNat 44
def colonC : Char := Char.ofNat 58
def minusC : Char := Char.ofNat 45

def isDigitC (c : Char) : Bool := 48 ≤ c.toNat && c.toNat ≤ 57

def digitC (d : ℕ) : Char := Char.ofNat (48 + d)

/-- Lowercase hex digit, as emitted by `JSON.stringify` in `\u00XX` escapes. -/
def hexDigitC (d : ℕ) : Char := if d < 10 then Char.ofNat (48 + d) else Char.ofNat (87 + d)

/-- Hex digit value (both cases accepted, as by `JSON.parse`). -/
def hexValC (c : Char) : Option ℕ :=
  if 48 ≤ c.toNat ∧ c.toNat ≤ 57 then some (c.toNat - 48)
  else if 97 ≤ c.toNat ∧ c.toNat ≤ 102 then some (c.toNat - 87)
  else if 65 ≤ c.toNat ∧ c.toNat ≤ 70 then some (c.toNat - 55)
  else none

/-- Decimal digits of a natural number, most significant first. -/
def natChars (n : ℕ) : List Char :=
  if n = 0 then [digitC 0] else ((Nat.digits 10 n).map digitC).reverse

/-- Decimal representation of an integer, as printed by JS for integral numbers. -/
def intChars (n : ℤ) : List Char :=
  if n < 0 then minusC :: natChars (-n).toNat else natChars n.toNat

/-- One character of a JSON string body, escaped as `JSON.stringify` does. -/
def escapeChar (c : Char) : List Char :=
  if c = quoteC then [backslashC, quoteC]
  else if c = backslashC then [backslashC, backslashC]
  else if c = Char.ofNat 8 then [backslashC, Char.ofNat 98]
  else if c = Char.ofNat 9 then [backslashC, Char.ofNat 116]
  else if c = Char.ofNat 10 then [backslashC, Char.ofNat 110]
  else if c = Char.ofNat 12 then [backslashC, Char.ofNat 102]
  else if c = Char.ofNat 13 then [backslashC, Char.ofNat 114]
  else if c.toNat < 32 then
    [backslashC, Char.ofNat 117, digitC 0, digitC 0,
      hexDigitC (c.toNat / 16), hexDigitC (c.toNat % 16)]
  else [c]

def escapeList : List Char → List Char
  | [] => []
  | c :: cs => escapeChar c ++ escapeList cs

def nullChars : List Char := [Char.ofNat 110, Char.ofNat 117, Char.ofNat 108, Char.ofNat 108]
def trueChars : List Char := [Char.ofNat 116, Char.ofNat 114, Char.ofNat 117, Char.ofNat 101]
def falseChars : List Char :=
  [Char.ofNat 102, Char.ofNat 97, Char.ofNat 108, Char.ofNat 115, Char.ofNat 101]

mutual

/-- The characters `JSON.stringify` produces for a JSON value. -/
def jsonPrint : Json → List Char
  | .null => nullChars
  | .bool true => trueChars
  | .bool false => falseChars
  | .num n => intChars n
  | .str s => quoteC :: (escapeList s.data ++ [quoteC])
  | .arr l => lbrackC :: (printArrItems l ++ [rbrackC])
  | .obj l => lbraceC :: (printObjItems l ++ [rbraceC])

/-- Array elements joined by commas. -/
def printArrItems : List Json → List Char
  | [] => []
  | [j] => jsonPrint j
  | j :: rest => jsonPrint j ++ commaC :: printArrItems rest

/-- Object entries joined by commas. -/
def printObjItems : List (String × Json) → List Char
  | [] => []
  | [(k, v)] => quoteC :: (escapeList k.data ++ [quoteC]) ++ colonC :: jsonPrint v
  | (k, v) :: rest =>
      (quoteC :: (escapeList k.data ++ [quoteC]) ++ colonC :: jsonPrint v) ++
        commaC :: printObjItems rest

end

/-- One `"key":value` entry (abbreviation for the entry shape printed by
`printObjItems`). -/
def printKV (k : String) (v : Json) : List Char :=
  quoteC :: (escapeList k.data ++ [quoteC]) ++ colonC :: jsonPrint v

/-- Unescape a single shorthand escape character, as `JSON.parse` does. -/
def unescapeC (c : Char) : Option Char :=
  if c = quoteC then some quoteC
  else if c = backslashC then some backslashC
  else if c = Char.ofNat 47 then some (Char.ofNat 47)
  else if c = Char.ofNat 98 then some (Char.ofNat 8)
  else if c = Char.ofNat 102 then some (Char.ofNat 12)
  else if c = Char.ofNat 110 then some (Char.ofNat 10)
  else if c = Char.ofNat 114 then some (Char.ofNat 13)
  else if c = Char.ofNat 116 then some (Char.ofNat 9)
  else none

/-- Parse a JSON string body up to (and consuming) the closing quote. -/
def parseStrChars : List Char → Option (List Char × List Char)
  | [] => none
  | c :: rest =>
    if c = quoteC then some ([], rest)
    else if c = backslashC then
      match rest with
      | [] => none
      | e :: rest2 =>
        if e = Char.ofNat 117 then
          match rest2 with
          | h1 :: h2 :: h3 :: h4 :: rest3 =>
            match hexValC h1, hexValC h2, hexValC h3, hexValC h4 with
            | some a, some b, some x, some d =>
              let code := ((a * 16 + b) * 16 + x) * 16 + d
              if Nat.isValidChar code then
                match parseStrChars rest3 with
                | some (s, r) => some (Char.ofNat code :: s, r)
                | none => none
              else none
            | _, _, _, _ => none
          | _ => none
        else
          match unescapeC e with
          | some ch =>
            match parseStrChars rest2 with
            | some (s, r) => some (ch :: s, r)
            | none => none
          | none => none
    else
      match parseStrChars rest with
      | some (s, r) => some (c :: s, r)
      | none => none
termination_by l => l.length
decreasing_by all_goals simp_arith [List.length]

def digitsToNat (l : List Char) : ℕ := l.foldl (fun a c => 10 * a + (c.toNat - 48)) 0

/-- Parse a run of decimal digits. -/
def parseNatNum (l : List Char) : Option (ℕ × List Char) :=
  let ds := l.takeWhile isDigitC
  if ds.isEmpty then none else some (digitsToNat ds, l.dropWhile isDigitC)

mutual

/-- Parse one JSON value from the canonical (whitespace-free) grammar
`JSON.stringify` emits; fuel-indexed recursion. -/
def parseVal : ℕ → List Char → Option (Json × List Char)
  | 0, _ => none
  | fuel + 1, input =>
    match input with
    | [] => none
    | c :: rest =>
      if c = quoteC then
        match parseStrChars rest with
        | some (s, r) => some (.str ⟨s⟩, r)
        | none => none
      else if c = lbrackC then
        match rest with
        | [] => none
        | d :: rest2 =>
          if d = rbrackC then some (.arr [], rest2)
          else
            match parseArrItems fuel (d :: rest2) with
            | some (l, r) => some (.arr l, r)
            | none => none
      else if c = lbraceC then
        match rest with
        | [] => none
        | d :: rest2 =>
          if d = rbraceC then some (.obj [], rest2)
          else
            match parseObjItems fuel (d :: rest2) with
            | some (l, r) => some (.obj l, r)
            | none => none
      else if c = minusC then
        match parseNatNum rest with
        | some (n, r) => some (.num (-(n : ℤ)), r)
        | none => none
      else if isDigitC c then
        match parseNatNum (c :: rest) with
        | some (n, r) => some (.num (n : ℤ), r)
        | none => none
      else if input.take 4 = nullChars then some (.null, input.drop 4)
      else if input.take 4 = trueChars then some (.bool true, input.drop 4)
      else if input.take 5 = falseChars then some (.bool false, input.drop 5)
      else none

/-- Parse the elements of a non-empty array including the closing bracket. -/
def parseArrItems : ℕ → List Char → Option (List Json × List Char)
  | 0, _ => none
  | fuel + 1, input =>
    match parseVal fuel input with
    | none => none
    | some (v, r) =>
      match r with
      | [] => none
      | c :: r2 =>
        if c = commaC then
          match parseArrItems fuel r2 with
          | some (l, r3) => some (v :: l, r3)
          | none => none
        else if c = rbrackC then some ([v], r2)
        else none

/-- Parse the entries of a non-empty object including the closing brace. -/
def parseObjItems : ℕ → List Char → Option (List (String × Json) × List Char)
  | 0, _ => none
  | fuel + 1, input =>
    match input with
    | [] => none
    | c :: rest =>
      if c = quoteC then
        match parseStrChars rest with
        | none => none
        | some (k, r) =>
          match r with
          | [] => none
          | d :: r2 =>
            if d = colonC then
              match parseVal fuel r2 with
              | none => none
              | some (v, r3) =>
                match r3 with
                | [] => none
                | e :: r4 =>
                  if e = commaC then
                    match parseObjItems fuel r4 with
                    | some (l, r5) => some ((⟨k⟩, v) :: l, r5)
                    | none => none
                  else if e = rbraceC then some ([(⟨k⟩, v)], r4)
                  else none
            else none
      else none

end

/-- Model of `JSON.stringify`. -/
def Json.stringify (j : Json) : String := ⟨jsonPrint j⟩

/-- Model of `JSON.parse` (on the canonical grammar; `none` models a thrown
`SyntaxError`). -/
def Json.parse (s : String) : Option Json :=
  match parseVal (s.data.length + 1) s.data with
  | some (j, []) => some j
  | _ => none

/-! ### Round-trip of the number printer -/

theorem digitC_isDigit (d : ℕ) (hd : d < 10) : isDigitC (digitC d) = true := by
  interval_cases d <;> decide

theorem digitC_toNat (d : ℕ) (hd : d < 10) : (digitC d).toNat = 48 + d := by
  interval_cases d <;> decide

theorem natChars_digits (n : ℕ) : ∀ c ∈ natChars n, isDigitC c = true := by
  intro c hc
  unfold natChars at hc
  split at hc
  · simp at hc
    subst hc
    decide
  · rw [List.mem_reverse, List.mem_map] at hc
    obtain ⟨d, hd, rfl⟩ := hc
    exact digitC_isDigit d (Nat.digits_lt_base (by norm_num) hd)

theorem natChars_ne_nil (n : ℕ) : natChars n ≠ [] := by
  unfold natChars
  split
  · simp
  · simp only [ne_eq, List.reverse_eq_nil_iff, List.map_eq_nil_iff]
    exact Nat.digits_ne_nil_iff_ne_zero.mpr (by assumption)

theorem digitsToNat_natChars (n : ℕ) : digitsToNat (natChars n) = n := by
  unfold natChars
  split
  · subst n
    decide
  · unfold digitsToNat
    rw [List.foldl_reverse]
    have key : ∀ (D : List ℕ), (∀ d ∈ D, d < 10) →
        (D.map digitC).foldr (fun c a => 10 * a + (c.toNat - 48)) 0 = Nat.ofDigits 10 D := by
      intro D
      induction D with
      | nil => simp [Nat.ofDigits]
      | cons d L ihl =>
        intro h
        have hd : d < 10 := h d (List.mem_cons_self d L)
        simp only [List.map_cons, List.foldr_cons, Nat.ofDigits_cons,
          ihl (fun x hx => h x (List.mem_cons_of_mem d hx)), digitC_toNat d hd]
        omega
    rw [key _ (fun d hd => Nat.digits_lt_base (by norm_num) hd), Nat.ofDigits_digits]

/-- Heads that stop a digit run (used to delimit number parsing). -/
def noDigitHead : List Char → Prop
  | [] => True
  | c :: _ => isDigitC c = false

theorem takeWhile_append_all {p : Char → Bool} (l r : List Char)
    (hl : ∀ c ∈ l, p c = true) (hr : ∀ c t, r = c :: t → p c = false) :
    (l ++ r).takeWhile p = l ∧ (l ++ r).dropWhile p = r := by
  induction l with
  | nil =>
    cases r with
    | nil => simp
    | cons c t => simp [List.takeWhile_cons, List.dropWhile_cons, hr c t rfl]
  | cons c l2 ih =>
    have hc : p c = true := hl c (List.mem_cons_self c l2)
    have := ih (fun x hx => hl x (List.mem_cons_of_mem c hx))
    simp [List.takeWhile_cons, List.dropWhile_cons, hc, this.1, this.2]

theorem parseNatNum_natChars (n : ℕ) (rest : List Char) (hrest : noDigitHead rest) :
    parseNatNum (natChars n ++ rest) = some (n, rest) := by
  have hr : ∀ c t, rest = c :: t → isDigitC c = false := by
    intro c t h
    rw [h] at hrest
    exact hrest
  have h := takeWhile_append_all (natChars n) rest (natChars_digits n) hr
  unfold parseNatNum
  rw [h.1, h.2]
  simp [List.isEmpty_iff, natChars_ne_nil, digitsToNat_natChars]

/-! ### Round-trip of the string printer -/

theorem hexValC_hexDigitC : ∀ d : ℕ, d < 16 → hexValC (hexDigitC d) = some d := by decide

theorem parseStrChars_escape (s : List Char) :
    ∀ rest : List Char, parseStrChars (escapeList s ++ quoteC :: rest) = some (s, rest) := by
  induction s with
  | nil =>
    intro rest
    rw [escapeList, List.nil_append, parseStrChars.eq_def]
    simp
  | cons c cs ih =>
    intro rest
    show parseStrChars ((escapeChar c ++ escapeList cs) ++ quoteC :: rest) = _
    rw [List.append_assoc]
    unfold escapeChar
    by_cases h1 : c = quoteC
    · subst h1
      rw [if_pos rfl]
      simp only [List.cons_append, List.nil_append]
      rw [parseStrChars.eq_def]
      simp +decide [unescapeC, ih]
    rw [if_neg h1]
    by_cases h2 : c = backslashC
    · subst h2
      rw [if_pos rfl]
      simp only [List.cons_append, List.nil_append]
      rw [parseStrChars.eq_def]
      simp +decide [unescapeC, ih]
    rw [if_neg h2]
    by_cases h3 : c = Char.ofNat 8
    · subst h3
      rw [if_pos rfl]
      simp only [List.cons_append, List.nil_append]
      rw [parseStrChars.eq_def]
      simp +decide [unescapeC, ih]
    rw [if_neg h3]
    by_cases h4 : c = Char.ofNat 9
    · subst h4
      rw [if_pos rfl]
      simp only [List.cons_append, List.nil_append]
      rw [parseStrChars.eq_def]
      simp +decide [unescapeC, ih]
    rw [if_neg h4]
    by_cases h5 : c = Char.ofNat 10
    · subst h5
      rw [if_pos rfl]
      simp only [List.cons_append, List.nil_append]
      rw [parseStrChars.eq_def]
      simp +decide [unescapeC, ih]
    rw [if_neg h5]
    by_cases h6 : c = Char.ofNat 12
    · subst h6
      rw [if_pos rfl]
      simp only [List.cons_append, List.nil_append]
      rw [parseStrChars.eq_def]
      simp +decide [unescapeC, ih]
    rw [if_neg h6]
    by_cases h7 : c = Char.ofNat 13
    · subst h7
      rw [if_pos rfl]
      simp only [List.cons_append, List.nil_append]
      rw [parseStrChars.eq_def]
      simp +decide [unescapeC, ih]
    rw [if_neg h7]
    by_cases h8 : c.toNat < 32
    · rw [if_pos h8]
      have hhi : hexValC (hexDigitC (c.toNat / 16)) = some (c.toNat / 16) :=
        hexValC_hexDigitC _ (by omega)
      have hlo : hexValC (hexDigitC (c.toNat % 16)) = some (c.toNat % 16) :=
        hexValC_hexDigitC _ (by omega)
      have h00 : hexValC (digitC 0) = some 0 := by decide
      simp only [List.cons_append, List.nil_append]
      rw [parseStrChars.eq_def]
      simp +decide only [hhi, hlo, h00, if_true, if_false, ite_true, ite_false]
      have hval : Nat.isValidChar (((0 * 16 + 0) * 16 + c.toNat / 16) * 16 + c.toNat % 16) := by
        left
        omega
      rw [if_pos hval]
      have hc : (((0 * 16 + 0) * 16 + c.toNat / 16) * 16 + c.toNat % 16) = c.toNat := by omega
      rw [hc, Char.ofNat_toNat, ih rest]
    · rw [if_neg h8]
      simp only [List.cons_append, List.nil_append]
      rw [parseStrChars.eq_def]
      simp only [if_neg h1, if_neg h2]
      rw [ih rest]

/-! ### Round-trip of the full printer -/

mutual

/-- Fuel sufficient to parse a printed value. -/
def jsonFuel : Json → ℕ
  | .null => 1
  | .bool _ => 1
  | .num _ => 1
  | .str _ => 1
  | .arr [] => 1
  | .arr (x :: xs) => 1 + arrFuel (x :: xs)
  | .obj [] => 1
  | .obj (kv :: kvs) => 1 + objFuel (kv :: kvs)

/-- Fuel for a non-empty array item list. -/
def arrFuel : List Json → ℕ
  | [] => 0
  | x :: xs => 1 + jsonFuel x + arrFuel xs

/-- Fuel for a non-empty object entry list. -/
def objFuel : List (String × Json) → ℕ
  | [] => 0
  | (_, v) :: kvs => 1 + jsonFuel v + objFuel kvs

end

theorem one_le_jsonFuel (j : Json) : 1 ≤ jsonFuel j := by
  cases j with
  | arr l => cases l <;> simp [jsonFuel]
  | obj l =>
    cases l with
    | nil => simp [jsonFuel]
    | cons kv kvs => obtain ⟨k, v⟩ := kv; simp [jsonFuel]
  | _ => simp [jsonFuel]

theorem isDigitC_ne_special (c : Char) (h : isDigitC c = true) :
    c ≠ quoteC ∧ c ≠ lbrackC ∧ c ≠ lbraceC ∧ c ≠ minusC ∧ c ≠ rbrackC ∧
      c ≠ rbraceC ∧ c ≠ commaC ∧ c ≠ colonC := by
  refine ⟨?_, ?_, ?_, ?_, ?_, ?_, ?_, ?_⟩ <;>
    · rintro rfl
      revert h
      decide

theorem natChars_head (n : ℕ) :
    ∃ d t, natChars n = d :: t ∧ isDigitC d = true := by
  obtain ⟨d, t, h⟩ := List.exists_cons_of_ne_nil (natChars_ne_nil n)
  exact ⟨d, t, h, natChars_digits n d (h ▸ List.mem_cons_self d t)⟩

/-- Every printed value starts with a character that is not a closing
bracket, closing brace, or comma (so array/object parsing can detect the
empty-collection case by looking at one character). -/
theorem jsonPrint_head (j : Json) :
    ∃ c t, jsonPrint j = c :: t ∧ c ≠ rbrackC ∧ c ≠ rbraceC := by
  cases j with
  | null => exact ⟨_, _, rfl, by decide, by decide⟩
  | bool b => cases b <;> exact ⟨_, _, rfl, by decide, by decide⟩
  | num n =>
    show ∃ c t, intChars n = c :: t ∧ _
    unfold intChars
    split
    · exact ⟨_, _, rfl, by decide, by decide⟩
    · obtain ⟨d, t, h, hd⟩ := natChars_head n.toNat
      have := isDigitC_ne_special d hd
      exact ⟨d, t, h, this.2.2.2.2.1, this.2.2.2.2.2.1⟩
  | str s => exact ⟨_, _, rfl, by decide, by decide⟩
  | arr l => cases l <;> exact ⟨_, _, rfl, by decide, by decide⟩
  | obj l =>
    cases l with
    | nil => exact ⟨_, _, rfl, by decide, by decide⟩
    | cons kv kvs => exact ⟨_, _, rfl, by decide, by decide⟩

theorem parseVal_succ_cons (fuel : ℕ) (c : Char) (rest : List Char) :
    parseVal (fuel + 1) (c :: rest) =
      (if c = quoteC then
        match parseStrChars rest with
        | some (s, r) => some (.str ⟨s⟩, r)
        | none => none
      else if c = lbrackC then
        match rest with
        | [] => none
        | d :: rest2 =>
          if d = rbrackC then some (.arr [], rest2)
          else
            match parseArrItems fuel (d :: rest2) with
            | some (l, r) => some (.arr l, r)
            | none => none
      else if c = lbraceC then
        match rest with
        | [] => none
        | d :: rest2 =>
          if d = rbraceC then some (.obj [], rest2)
          else
            match parseObjItems fuel (d :: rest2) with
            | some (l, r) => some (.obj l, r)
            | none => none
      else if c = minusC then
        match parseNatNum rest with
        | some (n, r) => some (.num (-(n : ℤ)), r)
        | none => none
      else if isDigitC c then
        match parseNatNum (c :: rest) with
        | some (n, r) => some (.num (n : ℤ), r)
        | none => none
      else if (c :: rest).take 4 = nullChars then some (.null, (c :: rest).drop 4)
      else if (c :: rest).take 4 = trueChars then some (.bool true, (c :: rest).drop 4)
      else if (c :: rest).take 5 = falseChars then some (.bool false, (c :: rest).drop 5)
      else none) := rfl

theorem parseArrItems_succ (fuel : ℕ) (input : List Char) :
    parseArrItems (fuel + 1) input =
      (match parseVal fuel input with
      | none => none
      | some (v, r) =>
        match r with
        | [] => none
        | c :: r2 =>
          if c = commaC then
            match parseArrItems fuel r2 with
            | some (l, r3) => some (v :: l, r3)
            | none => none
          else if c = rbrackC then some ([v], r2)
          else none) := rfl

theorem parseObjItems_succ_cons (fuel : ℕ) (c : Char) (rest : List Char) :
    parseObjItems (fuel + 1) (c :: rest) =
      (if c = quoteC then
        match parseStrChars rest with
        | none => none
        | some (k, r) =>
          match r with
          | [] => none
          | d :: r2 =>
            if d = colonC then
              match parseVal fuel r2 with
              | none => none
              | some (v, r3) =>
                match r3 with
                | [] => none
                | e :: r4 =>
                  if e = commaC then
                    match parseObjItems fuel r4 with
                    | some (l, r5) => some ((⟨k⟩, v) :: l, r5)
                    | none => none
                  else if e = rbraceC then some ([(⟨k⟩, v)], r4)
                  else none
            else none
      else none) := rfl

theorem noDigitHead_cons (c : Char) (xs : List Char) (h : isDigitC c = false) :
    noDigitHead (c :: xs) := h

theorem noDigitHead_nil : noDigitHead [] := trivial

theorem stringMk_data (s : String) : (⟨s.data⟩ : String) = s := rfl

theorem printArrItems_nil : printArrItems [] = [] := by rw [printArrItems]

theorem printArrItems_single (j : Json) : printArrItems [j] = jsonPrint j := by
  rw [printArrItems]

theorem printArrItems_cons2 (x y : Json) (ys : List Json) :
    printArrItems (x :: y :: ys) = jsonPrint x ++ commaC :: printArrItems (y :: ys) := by
  rw [printArrItems]
  simp

theorem printObjItems_nil : printObjItems [] = [] := by rw [printObjItems]

theorem printObjItems_single (k : String) (v : Json) :
    printObjItems [(k, v)] =
      quoteC :: (escapeList k.data ++ [quoteC]) ++ colonC :: jsonPrint v := by
  rw [printObjItems]

theorem printObjItems_cons2 (k : String) (v : Json) (kv2 : String × Json)
    (kvs2 : List (String × Json)) :
    printObjItems ((k, v) :: kv2 :: kvs2) =
      (quoteC :: (escapeList k.data ++ [quoteC]) ++ colonC :: jsonPrint v) ++
        commaC :: printObjItems (kv2 :: kvs2) := by
  rw [printObjItems]
  simp

theorem jsonFuel_arr_cons (x : Json) (xs : List Json) :
    jsonFuel (.arr (x :: xs)) = 1 + arrFuel (x :: xs) := by
  rw [jsonFuel.eq_def]

theorem jsonFuel_obj_cons (kv : String × Json) (kvs : List (String × Json)) :
    jsonFuel (.obj (kv :: kvs)) = 1 + objFuel (kv :: kvs) := by
  rw [jsonFuel.eq_def]

theorem arrFuel_cons (x : Json) (xs : List Json) :
    arrFuel (x :: xs) = 1 + jsonFuel x + arrFuel xs := by
  rw [arrFuel]

theorem objFuel_cons (k : String) (v : Json) (kvs : List (String × Json)) :
    objFuel ((k, v) :: kvs) = 1 + jsonFuel v + objFuel kvs := by
  rw [objFuel]

theorem parse_print_aux : ∀ fuel : ℕ,
    (∀ j rest, jsonFuel j ≤ fuel → noDigitHead rest →
      parseVal fuel (jsonPrint j ++ rest) = some (j, rest)) ∧
    (∀ l rest, l ≠ [] → arrFuel l ≤ fuel →
      parseArrItems fuel (printArrItems l ++ rbrackC :: rest) = some (l, rest)) ∧
    (∀ l rest, l ≠ [] → objFuel l ≤ fuel →
      parseObjItems fuel (printObjItems l ++ rbraceC :: rest) = some (l, rest)) := by
  intro fuel
  induction fuel using Nat.strong_induction_on with
  | _ fuel ih =>
  refine ⟨?_, ?_, ?_⟩
  · -- parseVal on a printed value
    intro j rest hfuel hrest
    obtain ⟨f, rfl⟩ : ∃ f, fuel = f + 1 :=
      ⟨fuel - 1, by have := one_le_jsonFuel j; omega⟩
    cases j with
    | null =>
      rw [show jsonPrint .null = nullChars by rw [jsonPrint]]
      rw [nullChars, List.cons_append, parseVal_succ_cons]
      simp +decide
    | bool b =>
      cases b
      · rw [show jsonPrint (.bool false) = falseChars by rw [jsonPrint]]
        rw [falseChars, List.cons_append, parseVal_succ_cons]
        simp +decide
      · rw [show jsonPrint (.bool true) = trueChars by rw [jsonPrint]]
        rw [trueChars, List.cons_append, parseVal_succ_cons]
        simp +decide
    | num n =>
      rw [show jsonPrint (.num n) = intChars n by rw [jsonPrint]]
      rw [intChars]
      by_cases hneg : n < 0
      · rw [if_pos hneg]
        rw [List.cons_append, parseVal_succ_cons]
        simp +decide only [if_true, if_false, ite_true, ite_false,
          parseNatNum_natChars _ rest hrest, Option.some.injEq, Prod.mk.injEq, and_true,
          Json.num.injEq]
        first
        | rfl
        | omega
      · rw [if_neg hneg]
        obtain ⟨d, t, hnc, hd⟩ := natChars_head n.toNat
        obtain ⟨hq, hlk, hlb, hm, _, _, _, _⟩ := isDigitC_ne_special d hd
        rw [hnc, List.cons_append, parseVal_succ_cons]
        simp only [if_neg hq, if_neg hlk, if_neg hlb, if_neg hm, hd, if_true, ite_true]
        rw [← List.cons_append, ← hnc, parseNatNum_natChars _ rest hrest]
        simp [Int.toNat_of_nonneg (by omega : (0:ℤ) ≤ n)]
    | str s =>
      rw [show jsonPrint (.str s) = quoteC :: (escapeList s.data ++ [quoteC]) by rw [jsonPrint]]
      rw [List.cons_append, parseVal_succ_cons]
      simp +decide only [if_true, ite_true]
      rw [List.append_assoc, List.singleton_append, parseStrChars_escape s.data rest]
    | arr l =>
      cases l with
      | nil =>
        rw [show jsonPrint (.arr []) = lbrackC :: (printArrItems [] ++ [rbrackC]) by
          rw [jsonPrint]]
        rw [printArrItems_nil]
        rw [List.nil_append, List.cons_append, parseVal_succ_cons]
        simp +decide
      | cons x xs =>
        rw [show jsonPrint (.arr (x :: xs)) =
            lbrackC :: (printArrItems (x :: xs) ++ [rbrackC]) by rw [jsonPrint]]
        have hitems : ∃ c t2, printArrItems (x :: xs) = c :: t2 ∧ c ≠ rbrackC := by
          obtain ⟨c, t, hx, hcrb, _⟩ := jsonPrint_head x
          cases xs with
          | nil =>
            refine ⟨c, t, ?_, hcrb⟩
            rw [printArrItems_single, hx]
          | cons y ys =>
            refine ⟨c, t ++ commaC :: printArrItems (y :: ys), ?_, hcrb⟩
            rw [printArrItems_cons2, hx]
            simp
        obtain ⟨c, t2, hpr, hcrb⟩ := hitems
        have hfa : arrFuel (x :: xs) ≤ f := by
          rw [jsonFuel_arr_cons] at hfuel
          omega
        have harr := (ih f (by omega)).2.1 (x :: xs) rest (by simp) hfa
        rw [List.cons_append, List.append_assoc, List.singleton_append, parseVal_succ_cons]
        simp +decide only [if_true, if_false, ite_true, ite_false]
        rw [hpr, List.cons_append]
        simp only [if_neg hcrb]
        rw [← List.cons_append, ← hpr, harr]
    | obj l =>
      cases l with
      | nil =>
        rw [show jsonPrint (.obj []) = lbraceC :: (printObjItems [] ++ [rbraceC]) by
          rw [jsonPrint]]
        rw [printObjItems_nil]
        rw [List.nil_append, List.cons_append, parseVal_succ_cons]
        simp +decide
      | cons kv kvs =>
        obtain ⟨k, v⟩ := kv
        have hitems : ∃ t2, printObjItems ((k, v) :: kvs) = quoteC :: t2 ∧
            quoteC :: t2 ++ rbraceC :: rest =
              printObjItems ((k, v) :: kvs) ++ rbraceC :: rest := by
          cases kvs with
          | nil =>
            refine ⟨(escapeList k.data ++ [quoteC]) ++ colonC :: jsonPrint v, ?_, ?_⟩
            · rw [printObjItems_single]
              simp
            · rw [printObjItems_single]
              simp
          | cons kv2 kvs2 =>
            refine ⟨((escapeList k.data ++ [quoteC]) ++ colonC :: jsonPrint v) ++
              commaC :: printObjItems (kv2 :: kvs2), ?_, ?_⟩
            · rw [printObjItems_cons2]
              simp
            · rw [printObjItems_cons2]
              simp
        obtain ⟨t2, hpr, _⟩ := hitems
        have hfo : objFuel ((k, v) :: kvs) ≤ f := by
          rw [jsonFuel_obj_cons] at hfuel
          omega
        have hobj := (ih f (by omega)).2.2 ((k, v) :: kvs) rest (by simp) hfo
        rw [show jsonPrint (.obj ((k, v) :: kvs)) =
            lbraceC :: (printObjItems ((k, v) :: kvs) ++ [rbraceC]) by rw [jsonPrint]]
        rw [List.cons_append, List.append_assoc, List.singleton_append, parseVal_succ_cons]
        simp +decide only [if_true, if_false, ite_true, ite_false]
        rw [hpr, List.cons_append]
        simp +decide only [if_false, ite_false]
        rw [← List.cons_append, ← hpr, hobj]
  · -- parseArrItems on printed items
    intro l rest hne hfuel
    cases l with
    | nil => exact absurd rfl hne
    | cons x xs =>
      rw [arrFuel] at hfuel
      obtain ⟨f, rfl⟩ : ∃ f, fuel = f + 1 := ⟨fuel - 1, by omega⟩
      have hvx := (ih f (by omega)).1 x
      cases xs with
      | nil =>
        rw [printArrItems_single]
        rw [parseArrItems_succ]
        rw [hvx (rbrackC :: rest) (by omega) (noDigitHead_cons _ _ (by decide))]
        simp +decide
      | cons y ys =>
        rw [printArrItems_cons2]
        rw [List.append_assoc, List.cons_append, parseArrItems_succ]
        rw [hvx (commaC :: (printArrItems (y :: ys) ++ rbrackC :: rest))
          (by omega) (noDigitHead_cons _ _ (by decide))]
        have harr := (ih f (by omega)).2.1 (y :: ys) rest (by simp) (by omega)
        simp +decide only [if_true, ite_true]
        rw [harr]
  · -- parseObjItems on printed entries
    intro l rest hne hfuel
    cases l with
    | nil => exact absurd rfl hne
    | cons kv kvs =>
      obtain ⟨k, v⟩ := kv
      rw [objFuel] at hfuel
      obtain ⟨f, rfl⟩ : ∃ f, fuel = f + 1 := ⟨fuel - 1, by omega⟩
      have hvv := (ih f (by omega)).1 v
      cases kvs with
      | nil =>
        rw [printObjItems_single]
        simp only [List.cons_append, List.append_assoc, List.singleton_append,
          List.nil_append]
        rw [parseObjItems_succ_cons]
        simp +decide only [if_true, ite_true]
        rw [parseStrChars_escape k.data]
        simp +decide only [if_true, ite_true]
        rw [hvv (rbraceC :: rest) (by omega) (noDigitHead_cons _ _ (by decide))]
        simp +decide [stringMk_data]
      | cons kv2 kvs2 =>
        rw [printObjItems_cons2]
        have hobj := (ih f (by omega)).2.2 (kv2 :: kvs2) rest (by simp) (by omega)
        simp only [List.cons_append, List.append_assoc, List.singleton_append,
          List.nil_append]
        rw [parseObjItems_succ_cons]
        simp +decide only [if_true, ite_true]
        rw [parseStrChars_escape k.data]
        simp +decide only [if_true, ite_true]
        rw [hvv (commaC :: (printObjItems (kv2 :: kvs2) ++ rbraceC :: rest))
          (by omega) (noDigitHead_cons _ _ (by decide))]
        simp +decide only [if_true, ite_true]
        rw [hobj]

theorem arrFuel_nil : arrFuel [] = 0 := by rw [arrFuel]

theorem objFuel_nil : objFuel [] = 0 := by rw [objFuel]

theorem jsonFuel_le_printLen : ∀ (n : ℕ) (j : Json), sizeOf j ≤ n →
    jsonFuel j ≤ (jsonPrint j).length := by
  intro n
  induction n with
  | zero =>
    intro j hj
    cases j <;> simp at hj
  | succ n ihn =>
    intro j hj
    cases j with
    | null =>
      rw [show jsonFuel .null = 1 by rw [jsonFuel.eq_def],
        show jsonPrint .null = nullChars by rw [jsonPrint]]
      simp [nullChars]
    | bool b =>
      cases b
      · rw [show jsonFuel (.bool false) = 1 by rw [jsonFuel.eq_def],
          show jsonPrint (.bool false) = falseChars by rw [jsonPrint]]
        simp [falseChars]
      · rw [show jsonFuel (.bool true) = 1 by rw [jsonFuel.eq_def],
          show jsonPrint (.bool true) = trueChars by rw [jsonPrint]]
        simp [trueChars]
    | num m =>
      rw [show jsonFuel (.num m) = 1 by rw [jsonFuel.eq_def],
        show jsonPrint (.num m) = intChars m by rw [jsonPrint]]
      have hne : intChars m ≠ [] := by
        unfold intChars
        split
        · simp
        · exact natChars_ne_nil _
      exact List.length_pos.mpr hne
    | str s =>
      rw [show jsonFuel (.str s) = 1 by rw [jsonFuel.eq_def],
        show jsonPrint (.str s) = quoteC :: (escapeList s.data ++ [quoteC]) by rw [jsonPrint]]
      simp
    | arr l =>
      cases l with
      | nil =>
        rw [show jsonFuel (.arr []) = 1 by rw [jsonFuel.eq_def],
          show jsonPrint (.arr []) = lbrackC :: (printArrItems [] ++ [rbrackC]) by
            rw [jsonPrint]]
        simp
      | cons x xs =>
        rw [jsonFuel_arr_cons,
          show jsonPrint (.arr (x :: xs)) =
            lbrackC :: (printArrItems (x :: xs) ++ [rbrackC]) by rw [jsonPrint]]
        have hlist : ∀ (l : List Json), (∀ y ∈ l, sizeOf y ≤ n) → l ≠ [] →
            arrFuel l ≤ (printArrItems l).length + 1 := by
          intro l
          induction l with
          | nil => exact fun _ h => absurd rfl h
          | cons y ys ihl =>
            intro hmem _
            cases ys with
            | nil =>
              rw [arrFuel_cons, printArrItems_single, arrFuel_nil]
              have := ihn y (hmem y (by simp))
              omega
            | cons z zs =>
              rw [arrFuel_cons, printArrItems_cons2]
              have h1 := ihn y (hmem y (by simp))
              have h2 := ihl (fun w hw => hmem w (by simp [hw])) (by simp)
              simp only [List.length_append, List.length_cons]
              omega
        have hx : ∀ y ∈ x :: xs, sizeOf y ≤ n := by
          intro y hy
          have hmem := List.sizeOf_lt_of_mem hy
          simp at hj hmem
          omega
        have := hlist (x :: xs) hx (by simp)
        simp only [List.length_cons, List.length_append]
        simp
        omega
    | obj l =>
      cases l with
      | nil =>
        rw [show jsonFuel (.obj []) = 1 by rw [jsonFuel.eq_def],
          show jsonPrint (.obj []) = lbraceC :: (printObjItems [] ++ [rbraceC]) by
            rw [jsonPrint]]
        simp
      | cons kv kvs =>
        rw [jsonFuel_obj_cons,
          show jsonPrint (.obj (kv :: kvs)) =
            lbraceC :: (printObjItems (kv :: kvs) ++ [rbraceC]) by rw [jsonPrint]]
        have hlist : ∀ (l : List (String × Json)), (∀ w ∈ l, sizeOf w.2 ≤ n) → l ≠ [] →
            objFuel l ≤ (printObjItems l).length + 1 := by
          intro l
          induction l with
          | nil => exact fun _ h => absurd rfl h
          | cons w ws ihl =>
            obtain ⟨k, v⟩ := w
            intro hmem _
            cases ws with
            | nil =>
              rw [objFuel_cons, printObjItems_single, objFuel_nil]
              have := ihn v (hmem (k, v) (by simp))
              simp only [List.length_append, List.length_cons]
              omega
            | cons w2 ws2 =>
              rw [objFuel_cons, printObjItems_cons2]
              have h1 := ihn v (hmem (k, v) (by simp))
              have h2 := ihl (fun u hu => hmem u (by simp [hu])) (by simp)
              simp only [List.length_append, List.length_cons]
              omega
        have hx : ∀ w ∈ kv :: kvs, sizeOf w.2 ≤ n := by
          intro w hw
          have hmem := List.sizeOf_lt_of_mem hw
          obtain ⟨k2, v2⟩ := w
          simp at hj hmem ⊢
          omega
        have := hlist (kv :: kvs) hx (by simp)
        simp only [List.length_cons, List.length_append]
        simp
        omega

/-- The `JSON.stringify` / `JSON.parse` round trip: parsing a serialized JSON
value recovers it exactly. -/
theorem Json.parse_stringify (j : Json) : Json.parse (Json.stringify j) = some j := by
  show Json.parse ⟨jsonPrint j⟩ = some j
  unfold Json.parse
  have h := (parse_print_aux ((jsonPrint j).length + 1)).1 j []
    (by have := jsonFuel_le_printLen (sizeOf j) j le_rfl; omega) noDigitHead_nil
  rw [List.append_nil] at h
  show (match parseVal ((jsonPrint j).length + 1) (jsonPrint j) with
    | some (j, []) => some j
    | _ => none) = some j
  rw [h]

/-- A printed JSON value is never the empty string. -/
theorem stringify_ne_empty (j : Json) : Json.stringify j ≠ "" := by
  obtain ⟨c, t, h, _, _⟩ := jsonPrint_head j
  show (⟨jsonPrint j⟩ : String) ≠ ⟨[]⟩
  rw [h]
  intro hcontra
  exact List.cons_ne_nil c t (congrArg String.data hcontra)

/-! ## Store entities (src/types.ts) and the database manager
(src/database/schema.ts)

Rows are kept in rowid (insertion) order; `SELECT` without `ORDER BY` scans
in that order, `ORDER BY` is a stable insertion sort, `LIKE '%x%'` is an
ASCII-case-insensitive substring test.  An episode row stores its structured
fields as serialized text (`insertEpisode` applies `JSON.stringify`,
`rowToEpisode` applies `JSON.parse`); patterns and lessons are kept
structurally, since no claim concerns their serialization. -/

inductive Outcome where
  | success
  | failure
  | partialResult
deriving DecidableEq, Repr

inductive PatternType where
  | success
  | failure
  | correlation
deriving DecidableEq, Repr

structure EpisodeRow where
  id : ℕ
  timestamp : ℤ
  operation_type : String
  server_name : Option String
  problem : Option String
  solution : Option String
  outcome : Outcome
  metadata : Option String
  quality_score : Option ℝ
  duration_ms : Option ℤ
  notes : Option String
  novelty_score : ℝ
  effectiveness_score : ℝ
  generalizability_score : ℝ
  utility_score : ℝ
  client_domain : Option String
  problem_category : Option String
  vertical : Option String
  company_size : Option String

/-- An `Episode` as the engine sees it after row conversion (structured
fields deserialized). -/
structure Episode where
  id : ℕ
  timestamp : ℤ
  operation_type : String
  server_name : Option String
  problem : Option Json
  solution : Option Json
  outcome : Outcome
  metadata : Option Json
  quality_score : Option ℝ
  duration_ms : Option ℤ
  notes : Option String
  novelty_score : ℝ
  effectiveness_score : ℝ
  generalizability_score : ℝ
  utility_score : ℝ
  client_domain : Option String
  problem_category : Option String
  vertical : Option String
  company_size : Option String

structure PatternRec where
  id : ℕ
  pattern_type : PatternType
  description : String
  episode_ids : List ℕ
  frequency : ℕ
  last_seen : ℤ
  created_at : ℤ
  initial_confidence : ℝ
  decay_constant : ℝ
  last_validated : ℤ
  times_applied : ℕ
  times_succeeded : ℕ
  discrimination_weight : ℝ

structure LessonRec where
  id : ℕ
  statement : String
  pattern_id : Option ℕ
  contexts : Option (List String)
  initial_confidence : ℝ
  decay_constant : ℝ
  last_validated : ℤ
  times_applied : ℕ
  times_succeeded : ℤ
  created_at : ℤ
  deprecated_at : Option ℤ

structure Db where
  episodes : List EpisodeRow
  patterns : List PatternRec
  lessons : List LessonRec
  nextEpisodeId : ℕ
  nextPatternId : ℕ
  nextLessonId : ℕ

def emptyDb : Db := ⟨[], [], [], 1, 1, 1⟩

/-- Serialize a structured field: `x ? JSON.stringify(x) : null`. -/
def encodeField (x : Option Json) : Option String :=
  match x with
  | none => none
  | some j => if jsTruthy j then some (Json.stringify j) else none

/-- Deserialize a structured field: `x ? JSON.parse(x) : undefined`; the
outer `none` models a `JSON.parse` throw. -/
def decodeField (x : Option String) : Option (Option Json) :=
  match x with
  | none => some none
  | some s => if s = "" then some none else (Json.parse s).map some

/-- `rowToEpisode` from src/database/schema.ts. -/
def rowToEpisode (row : EpisodeRow) : Option Episode := do
  let p ← decodeField row.problem
  let sol ← decodeField row.solution
  let m ← decodeField row.metadata
  some
    { id := row.id, timestamp := row.timestamp, operation_type := row.operation_type
      server_name := row.server_name, problem := p, solution := sol
      outcome := row.outcome, metadata := m, quality_score := row.quality_score
      duration_ms := row.duration_ms, notes := row.notes
      novelty_score := row.novelty_score, effectiveness_score := row.effectiveness_score
      generalizability_score := row.generalizability_score
      utility_score := row.utility_score, client_domain := row.client_domain
      problem_category := row.problem_category, vertical := row.vertical
      company_size := row.company_size }

/-- `insertEpisode` from src/database/schema.ts: serializes the structured
fields and appends a row with the next auto-increment id. -/
def insertEpisode (db : Db) (episode : Episode) : Db × ℕ :=
  let row : EpisodeRow :=
    { id := db.nextEpisodeId, timestamp := episode.timestamp
      operation_type := episode.operation_type, server_name := episode.server_name
      problem := encodeField episode.problem, solution := encodeField episode.solution
      outcome := episode.outcome, metadata := encodeField episode.metadata
      quality_score := episode.quality_score, duration_ms := episode.duration_ms
      notes := episode.notes, novelty_score := episode.novelty_score
      effectiveness_score := episode.effectiveness_score
      generalizability_score := episode.generalizability_score
      utility_score := episode.utility_score, client_domain := episode.client_domain
      problem_category := episode.problem_category, vertical := episode.vertical
      company_size := episode.company_size }
  ({ db with episodes := db.episodes ++ [row], nextEpisodeId := db.nextEpisodeId + 1 },
    db.nextEpisodeId)

def findEpisodeRow (db : Db) (id : ℕ) : Option EpisodeRow :=
  db.episodes.find? (fun r => r.id == id)

/-- `getEpisode` from src/database/schema.ts. -/
def getEpisode (db : Db) (id : ℕ) : Option Episode :=
  (findEpisodeRow db id).bind rowToEpisode

/-- Stable sort, newest first (`ORDER BY timestamp DESC`). -/
def sortByTimestampDesc (l : List EpisodeRow) : List EpisodeRow :=
  l.insertionSort (fun a b => b.timestamp ≤ a.timestamp)

/-- The rows of `getEpisodesByType` from src/database/schema.ts. -/
def episodeRowsByType (db : Db) (operationType : String) (since : Option ℤ)
    (limit : ℕ) : List EpisodeRow :=
  (sortByTimestampDesc (db.episodes.filter (fun r =>
    r.operation_type == operationType &&
      match since with
      | none => true
      | some s => decide (s ≤ r.timestamp)))).take limit

/-- `getEpisodesByType` from src/database/schema.ts (`none` models a
deserialization throw). -/
def getEpisodesByType (db : Db) (operationType : String) (since : Option ℤ)
    (limit : ℕ) : Option (List Episode) :=
  (episodeRowsByType db operationType since limit).mapM rowToEpisode

/-- `getEpisodesByIds` from src/database/schema.ts: `WHERE id IN (...)` in
table scan order. -/
def getEpisodesByIds (db : Db) (ids : List ℕ) : Option (List Episode) :=
  (db.episodes.filter (fun r => ids.contains r.id)).mapM rowToEpisode

/-- Lowercase an ASCII letter (SQLite `LIKE` is ASCII-case-insensitive). -/
def lowerAscii (c : Char) : Char :=
  if 65 ≤ c.toNat ∧ c.toNat ≤ 90 then Char.ofNat (c.toNat + 32) else c

/-- `needle` is a prefix of `hay`. -/
def prefixCheck : List Char → List Char → Bool
  | [], _ => true
  | _ :: _, [] => false
  | a :: as, b :: bs => a == b && prefixCheck as bs

/-- `needle` occurs as a contiguous sublist of `hay`. -/
def infixCheck (needle : List Char) : List Char → Bool
  | [] => prefixCheck needle []
  | b :: bs => prefixCheck needle (b :: bs) || infixCheck needle bs

/-- `description LIKE '%searchText%'`. -/
def likeContains (description searchText : String) : Bool :=
  infixCheck (searchText.data.map lowerAscii) (description.data.map lowerAscii)

/-- `findPatternByDescription` from src/database/schema.ts: first pattern
whose description contains the search text (`LIMIT 1` in scan order). -/
def findPatternByDescription (db : Db) (searchText : String) : Option PatternRec :=
  db.patterns.find? (fun p => likeContains p.description searchText)

/-- `getPattern` from src/database/schema.ts. -/
def getPattern (db : Db) (id : ℕ) : Option PatternRec :=
  db.patterns.find? (fun p => p.id == id)

/-- `insertPattern` from src/database/schema.ts (the argument's `id` is
ignored; the next auto-increment id is assigned). -/
def insertPattern (db : Db) (p : PatternRec) : Db × ℕ :=
  let p2 := { p with id := db.nextPatternId }
  ({ db with patterns := db.patterns ++ [p2], nextPatternId := db.nextPatternId + 1 },
    db.nextPatternId)

/-- The fields `updatePattern` (src/database/schema.ts) can change — and only
those: the description, type, creation time and decay constant are not
updatable. -/
structure PatternUpdate where
  frequency : Option ℕ := none
  last_seen : Option ℤ := none
  initial_confidence : Option ℝ := none
  last_validated : Option ℤ := none
  times_applied : Option ℕ := none
  times_succeeded : Option ℕ := none
  discrimination_weight : Option ℝ := none
  episode_ids : Option (List ℕ) := none

def applyPatternUpdate (u : PatternUpdate) (p : PatternRec) : PatternRec :=
  { p with
    frequency := u.frequency.getD p.frequency
    last_seen := u.last_seen.getD p.last_seen
    initial_confidence := u.initial_confidence.getD p.initial_confidence
    last_validated := u.last_validated.getD p.last_validated
    times_applied := u.times_applied.getD p.times_applied
    times_succeeded := u.times_succeeded.getD p.times_succeeded
    discrimination_weight := u.discrimination_weight.getD p.discrimination_weight
    episode_ids := u.episode_ids.getD p.episode_ids }

/-- `updatePattern` from src/database/schema.ts. -/
def updatePattern (db : Db) (id : ℕ) (u : PatternUpdate) : Db :=
  { db with patterns := db.patterns.map (fun p =>
      if p.id == id then applyPatternUpdate u p else p) }

/-- `getLesson` from src/database/schema.ts. -/
def getLesson (db : Db) (id : ℕ) : Option LessonRec :=
  db.lessons.find? (fun l => l.id == id)

/-- `insertLesson` from src/database/schema.ts. -/
def insertLesson (db : Db) (l : LessonRec) : Db × ℕ :=
  let l2 := { l with id := db.nextLessonId }
  ({ db with lessons := db.lessons ++ [l2], nextLessonId := db.nextLessonId + 1 },
    db.nextLessonId)

/-- The fields `updateLesson` (src/database/schema.ts) can change. -/
structure LessonUpdate where
  initial_confidence : Option ℝ := none
  last_validated : Option ℤ := none
  times_applied : Option ℕ := none
  times_succeeded : Option ℤ := none
  deprecated_at : Option (Option ℤ) := none
  contexts : Option (List String) := none

def applyLessonUpdate (u : LessonUpdate) (l : LessonRec) : LessonRec :=
  { l with
    initial_confidence := u.initial_confidence.getD l.initial_confidence
    last_validated := u.last_validated.getD l.last_validated
    times_applied := u.times_applied.getD l.times_applied
    times_succeeded := u.times_succeeded.getD l.times_succeeded
    deprecated_at := u.deprecated_at.getD l.deprecated_at
    contexts := u.contexts.map some |>.getD l.contexts }

/-- `updateLesson` from src/database/schema.ts. -/
def updateLesson (db : Db) (id : ℕ) (u : LessonUpdate) : Db :=
  { db with lessons := db.lessons.map (fun l =>
      if l.id == id then applyLessonUpdate u l else l) }

/-- `deprecateLesson` from src/database/schema.ts: `deprecated_at = Date.now()`. -/
def deprecateLesson (db : Db) (id : ℕ) (now : ℤ) : Db :=
  { db with lessons := db.lessons.map (fun l =>
      if l.id == id then { l with deprecated_at := some now } else l) }

/-- A lesson together with its decayed confidence, as returned by
`getActiveLessons`. -/
structure LessonWithConfidence where
  lesson : LessonRec
  current_confidence : ℝ

/-- Stable sort by stored confidence, highest first
(`ORDER BY initial_confidence DESC`). -/
noncomputable def sortByInitialConfidenceDesc (l : List LessonRec) : List LessonRec :=
  l.insertionSort (fun a b => b.initial_confidence ≤ a.initial_confidence)

/-- `getActiveLessons` from src/database/schema.ts: non-deprecated lessons,
scanned in `ORDER BY initial_confidence DESC` order, each given its decayed
`current_confidence`, then filtered by `current_confidence >= minConfidence`. -/
noncomputable def getActiveLessons (db : Db) (now : ℤ) (minConfidence : ℝ) :
    List LessonWithConfidence :=
  (((sortByInitialConfidenceDesc (db.lessons.filter (fun l => l.deprecated_at = none))).map
    (fun l => LessonWithConfidence.mk l
      (calculateCurrentConfidence l.initial_confidence l.decay_constant
        l.last_validated now))).filter
    (fun x => minConfidence ≤ x.current_confidence))

/-! ## Tool layer (src/tools) -/

/-- Named error kinds (spec §7); thrown `JSON.parse` / store errors are
`StorageFailure`. -/
inductive ExpError where
  | NotFound
  | InsufficientEvidence
  | StorageFailure
deriving DecidableEq, Repr

def natToString (n : ℕ) : String := ⟨natChars n⟩

def intToString (n : ℤ) : String := ⟨intChars n⟩

/-- Field projection on a parsed JSON object (`x.field` in JS; `undefined`
on non-objects). -/
def jsGetField (j : Json) (k : String) : Option Json :=
  match j with
  | .obj kvs => (kvs.find? (fun kv => kv.1 == k)).map (fun kv => kv.2)
  | _ => none

def jsField (m : Option Json) (k : String) : Option Json :=
  m.bind (fun j => jsGetField j k)

def jsGetQuery (p : Option Json) : Option Json := jsField p "query"

/-- `a === b` between a freshly parsed value and a caller-supplied value:
primitives compare by value, objects and arrays are distinct references and
compare unequal, `undefined === undefined` holds. -/
def jsStrictEq : Option Json → Option Json → Bool
  | none, none => true
  | some .null, some .null => true
  | some (.bool a), some (.bool b) => a == b
  | some (.num a), some (.num b) => a == b
  | some (.str a), some (.str b) => a == b
  | _, _ => false

/-- `x?.length ?? 0` for a `string[]`-typed field. -/
def jsArrLen (x : Option Json) : ℕ :=
  match x with
  | some (.arr l) => l.length
  | _ => 0

/-- `calculateNoveltyScore` from src/tools/record-experience.ts. -/
noncomputable def calculateNoveltyScore (db : Db) (operationType : String)
    (problem : Option Json) : Option ℝ :=
  match getEpisodesByType db operationType none 50 with
  | none => none
  | some recentEpisodes =>
    if recentEpisodes.length = 0 then some 1.0
    else
      let similarCount := (recentEpisodes.filter (fun e =>
        jsStrictEq (jsGetQuery e.problem) (jsGetQuery problem))).length
      let similarityRatio : ℝ := (similarCount : ℝ) / (recentEpisodes.length : ℝ)
      some (max 0.1 (1.0 - similarityRatio))

/-- `calculateEffectivenessScore` from src/tools/record-experience.ts. -/
noncomputable def calculateEffectivenessScore (outcome : Outcome)
    (qualityScore : Option ℝ) : ℝ :=
  let baseScore : ℝ :=
    if outcome = Outcome.success then 1.0
    else if outcome = Outcome.partialResult then 0.5 else 0.0
  match qualityScore with
  | some q => 0.6 * baseScore + 0.4 * q
  | none => baseScore

/-- `calculateGeneralizabilityScore` from src/tools/record-experience.ts. -/
noncomputable def calculateGeneralizabilityScore (db : Db) (operationType : String)
    (metadata : Option Json) : Option ℝ :=
  match getEpisodesByType db operationType none 1000 with
  | none => none
  | some typeEpisodes =>
    let depCount := jsArrLen (jsField metadata "dependencies")
    let triggerCount := jsArrLen (jsField metadata "triggers")
    let depPenalty := min 0.3 ((depCount : ℝ) * 0.1)
    let triggerBonus := min 0.2 ((triggerCount : ℝ) * 0.05)
    let typeBonus := min 0.3 (Real.log ((typeEpisodes.length : ℝ) + 1) * 0.1)
    some (max 0.1 (min 1.0 (0.5 - depPenalty + triggerBonus + typeBonus)))

/-- `detectPatterns` from src/tools/record-experience.ts. -/
noncomputable def detectPatterns (db : Db) (now : ℤ) (episode : Episode) :
    Option (List PatternRec × Db) :=
  let windowStart := now - (PATTERN_CONFIG.recencyWindowDays : ℤ) * msPerDayInt
  match getEpisodesByType db episode.operation_type (some windowStart) 500 with
  | none => none
  | some similar =>
    if similar.length < PATTERN_CONFIG.minEpisodes then some ([], db)
    else
      let successCount := (similar.filter (fun e => e.outcome == Outcome.success)).length
      let successRate : ℝ := (successCount : ℝ) / (similar.length : ℝ)
      let frequencyWeight := Real.log ((similar.length : ℝ) + 1)
      let avgAge : ℝ :=
        ((similar.map (fun e => ((now - e.timestamp : ℤ) : ℝ))).sum) / (similar.length : ℝ)
      let avgAgeDays := avgAge / msPerDay
      let recencyBonus := Real.exp (-PATTERN_CONFIG.decayConstant * avgAgeDays)
      let discriminationWeight := successRate * frequencyWeight * recencyBonus
      if discriminationWeight < PATTERN_CONFIG.minDiscriminationWeight then some ([], db)
      else
        let patternType :=
          if successRate > 0.6 then PatternType.success
          else if successRate < 0.4 then PatternType.failure
          else PatternType.correlation
        let description := episode.operation_type ++ ": " ++
          intToString (jsRound (successRate * 100)) ++ "% success rate over " ++
          natToString similar.length ++ " episodes"
        match findPatternByDescription db episode.operation_type with
        | some existing =>
          let db2 := updatePattern db existing.id
            { frequency := some similar.length
              discrimination_weight := some discriminationWeight
              initial_confidence := some ((existing.initial_confidence +
                discriminationWeight) / 2)
              last_seen := some now
              last_validated := some now
              episode_ids := some (similar.map (fun e => e.id)) }
          match getPattern db2 existing.id with
          | some updated => some ([updated], db2)
          | none => some ([], db2)
        | none =>
          let newPat : PatternRec :=
            { id := 0, pattern_type := patternType, description := description
              episode_ids := similar.map (fun e => e.id), frequency := similar.length
              last_seen := now, created_at := now
              initial_confidence := min 0.8 (0.4 + discriminationWeight)
              decay_constant := PATTERN_CONFIG.decayConstant, last_validated := now
              times_applied := 0, times_succeeded := 0
              discrimination_weight := discriminationWeight }
          let db2pid := insertPattern db newPat
          match getPattern db2pid.1 db2pid.2 with
          | some created => some ([created], db2pid.1)
          | none => some ([], db2pid.1)

structure RecordExperienceInput where
  operation_type : String
  server_name : Option String := none
  problem : Option Json := none
  solution : Option Json := none
  outcome : Outcome
  metadata : Option Json := none
  quality_score : Option ℝ := none
  duration_ms : Option ℤ := none
  notes : Option String := none

structure RecordExperienceResult where
  episode_id : ℕ
  recorded : Bool
  utility_score : ℝ
  patterns_triggered : List String

/-- `recordExperience` from src/tools/record-experience.ts. -/
noncomputable def recordExperience (db : Db) (now : ℤ) (input : RecordExperienceInput) :
    Option (Db × RecordExperienceResult) :=
  match calculateNoveltyScore db input.operation_type input.problem with
  | none => none
  | some noveltyScore =>
    let effectivenessScore := calculateEffectivenessScore input.outcome input.quality_score
    match calculateGeneralizabilityScore db input.operation_type input.metadata with
    | none => none
    | some generalizabilityScore =>
      let utilityScore :=
        calculateUtilityScore noveltyScore effectivenessScore generalizabilityScore
      let episode : Episode :=
        { id := 0, timestamp := now, operation_type := input.operation_type
          server_name := input.server_name, problem := input.problem
          solution := input.solution, outcome := input.outcome
          metadata := input.metadata, quality_score := input.quality_score
          duration_ms := input.duration_ms, notes := input.notes
          novelty_score := noveltyScore, effectiveness_score := effectivenessScore
          generalizability_score := generalizabilityScore, utility_score := utilityScore
          client_domain := none, problem_category := none, vertical := none
          company_size := none }
      let db1id := insertEpisode db episode
      match findEpisodeRow db1id.1 db1id.2 with
      | none => some (db1id.1,
          { episode_id := db1id.2, recorded := true, utility_score := utilityScore
            patterns_triggered := [] })
      | some row =>
        match rowToEpisode row with
        | none => none
        | some savedEpisode =>
          match detectPatterns db1id.1 now savedEpisode with
          | none => none
          | some pdb2 =>
            some (pdb2.2,
              { episode_id := db1id.2, recorded := true, utility_score := utilityScore
                patterns_triggered := pdb2.1.map (fun p => p.description) })

structure ApplyLessonInput where
  lesson_id : ℕ
  outcome : Outcome
  notes : Option String := none

structure ApplyLessonResult where
  applied : Bool
  lesson_id : ℕ
  previous_confidence : ℝ
  new_confidence : ℝ
  total_applications : ℕ
  success_rate : ℝ

/-- The related-pattern usage-counter update at the end of `applyLesson`
(src/tools/apply-lesson.ts): if the lesson references a pattern that
resolves, bump its counters (`delta` is 1 on full success, else 0). -/
noncomputable def patternSideUpdate (db : Db) (patternId : Option ℕ) (delta : ℕ)
    (now : ℤ) : Db :=
  match patternId with
  | none => db
  | some pid =>
    match getPattern db pid with
    | none => db
    | some pattern =>
      updatePattern db pid
        { times_applied := some (pattern.times_applied + 1)
          times_succeeded := some (pattern.times_succeeded + delta)
          last_validated := some now }

/-- `applyLesson` from src/tools/apply-lesson.ts. -/
noncomputable def applyLesson (db : Db) (now : ℤ) (input : ApplyLessonInput) :
    Except ExpError (Db × ApplyLessonResult) :=
  match getLesson db input.lesson_id with
  | none => .error .NotFound
  | some lesson =>
    let previousConfidence := calculateCurrentConfidence lesson.initial_confidence
      lesson.decay_constant lesson.last_validated now
    let succeeded := input.outcome = Outcome.success
    let partialSuccess := input.outcome = Outcome.partialResult
    let newTimesApplied := lesson.times_applied + 1
    let newTimesSucceeded : ℝ := (lesson.times_succeeded : ℝ) +
      (if succeeded then 1 else if partialSuccess then 0.5 else 0)
    let successRate := newTimesSucceeded / (newTimesApplied : ℝ)
    let priorWeight := max 0.3 (1 - Real.log ((newTimesApplied : ℝ) + 1) / 5)
    let evidenceWeight := 1 - priorWeight
    let evidenceConfidence : ℝ := if succeeded then 1.0 else if partialSuccess then 0.5 else 0.0
    let newInitialConfidence := max 0.1 (min 0.95
      (priorWeight * previousConfidence +
        evidenceWeight * (0.7 * successRate + 0.3 * evidenceConfidence)))
    let db1 := updateLesson db input.lesson_id
      { initial_confidence := some newInitialConfidence
        last_validated := some now
        times_applied := some newTimesApplied
        times_succeeded := some (jsRound newTimesSucceeded) }
    let db2 :=
      if newInitialConfidence < CONFIDENCE_THRESHOLDS.deprecation ∧ newTimesApplied ≥ 5
      then deprecateLesson db1 input.lesson_id now
      else db1
    let db3 := patternSideUpdate db2 lesson.pattern_id (if succeeded then 1 else 0) now
    .ok (db3,
      { applied := true, lesson_id := input.lesson_id
        previous_confidence := previousConfidence
        new_confidence := newInitialConfidence
        total_applications := newTimesApplied
        success_rate := successRate })

structure LearnFromPatternInput where
  pattern_description : String
  episode_ids : List ℕ
  lesson_statement : String

structure LearnFromPatternResult where
  lesson_id : ℕ
  created : Bool
  initial_confidence : ℝ
  pattern_id : Option ℕ

/-- `[...new Set(xs)]`: deduplicate keeping first occurrences in order. -/
def jsDedup : List String → List String
  | [] => []
  | x :: xs => x :: jsDedup (xs.filter (fun y => y ≠ x))
termination_by l => l.length
decreasing_by
  simp only [List.length_cons]
  have := List.length_filter_le (fun y => y ≠ x) xs
  omega

/-- `metadata?.environment` where the field is a (truthy) string. -/
def envString (metadata : Option Json) : Option String :=
  match jsField metadata "environment" with
  | some (.str s) => if s == "" then none else some s
  | _ => none

/-- `episode.server_name` when truthy. -/
def serverString (sn : Option String) : Option String :=
  match sn with
  | some s => if s == "" then none else some s
  | none => none

/-- Context extraction of `learnFromPattern`: `server:`/`env:` tags pushed
per episode, then `operation:` tags per distinct operation type, then
deduplicated. -/
def lessonContexts (episodes : List Episode) : List String :=
  let perEpisode := (episodes.map (fun e =>
    (match serverString e.server_name with
     | some s => ["server:" ++ s]
     | none => []) ++
    (match envString e.metadata with
     | some v => ["env:" ++ v]
     | none => []))).join
  let opTypes := jsDedup (episodes.map (fun e => e.operation_type))
  jsDedup (perEpisode ++ opTypes.map (fun t => "operation:" ++ t))

/-- `learnFromPattern` from src/tools/learn-from-pattern.ts. -/
noncomputable def learnFromPattern (db : Db) (now : ℤ) (input : LearnFromPatternInput) :
    Except ExpError (Db × LearnFromPatternResult) :=
  match getEpisodesByIds db input.episode_ids with
  | none => .error .StorageFailure
  | some episodes =>
    if episodes.length < PATTERN_CONFIG.minEpisodes then .error .InsufficientEvidence
    else
      let successCount := (episodes.filter (fun e => e.outcome == Outcome.success)).length
      let successRate : ℝ := (successCount : ℝ) / (episodes.length : ℝ)
      let episodeCountBonus := min 0.3 (Real.log ((episodes.length : ℝ) + 1) * 0.1)
      let avgUtility := ((episodes.map (fun e => e.utility_score)).sum) / (episodes.length : ℝ)
      let utilityBonus := avgUtility * 0.2
      let initialConfidence := min 0.9 (max 0.3
        (0.4 + successRate * 0.3 + episodeCountBonus + utilityBonus))
      let db1pid :=
        match findPatternByDescription db input.pattern_description with
        | some existingPattern =>
          (updatePattern db existingPattern.id
            { frequency := some episodes.length, last_seen := some now
              last_validated := some now, episode_ids := some input.episode_ids },
           existingPattern.id)
        | none =>
          let patternType :=
            if successRate > 0.6 then PatternType.success
            else if successRate < 0.4 then PatternType.failure
            else PatternType.correlation
          insertPattern db
            { id := 0, pattern_type := patternType
              description := input.pattern_description
              episode_ids := input.episode_ids, frequency := episodes.length
              last_seen := now, created_at := now, initial_confidence := initialConfidence
              decay_constant := PATTERN_CONFIG.decayConstant, last_validated := now
              times_applied := 0, times_succeeded := 0
              discrimination_weight := successRate * Real.log ((episodes.length : ℝ) + 1) }
      let contexts := lessonContexts episodes
      let db2lid := insertLesson db1pid.1
        { id := 0, statement := input.lesson_statement, pattern_id := some db1pid.2
          contexts := some contexts, initial_confidence := initialConfidence
          decay_constant := PATTERN_CONFIG.decayConstant, last_validated := now
          times_applied := 0, times_succeeded := 0, created_at := now
          deprecated_at := none }
      .ok (db2lid.1,
        { lesson_id := db2lid.2, created := true
          initial_confidence := initialConfidence, pattern_id := some db1pid.2 })

structure CleanupResult where
  deletedEpisodes : ℕ
  deletedPatterns : ℕ
  deprecatedLessons : ℕ

/-- Whether the retention sweep deprecates a lesson: not already deprecated,
never applied or with low current confidence, and not validated within the
retention window. -/
noncomputable def staleLowUseLesson (l : LessonRec) (now cutoff : ℤ) : Prop :=
  l.deprecated_at = none ∧
  (l.times_applied = 0 ∨
    calculateCurrentConfidence l.initial_confidence l.decay_constant
      l.last_validated now < CONFIDENCE_THRESHOLDS.medium) ∧
  l.last_validated < cutoff

noncomputable instance (l : LessonRec) (now cutoff : ℤ) :
    Decidable (staleLowUseLesson l now cutoff) := by
  unfold staleLowUseLesson
  infer_instance

/-- Modelled from the spec: the maintenance operation `cleanupOldData` is
described in the specification (§4.4 retention sweep) and in the repository's
audit document, but its implementation is not among the provided sources.
It deletes episodes older than `retentionDays`, deletes patterns whose
`last_seen` is older than `2·retentionDays`, deprecates (does not delete)
stale low-use lessons, and returns the count of each action. -/
noncomputable def cleanupOldData (db : Db) (now : ℤ) (retentionDays : ℕ) :
    Db × CleanupResult :=
  let cutoff := now - (retentionDays : ℤ) * msPerDayInt
  let patternCutoff := now - 2 * (retentionDays : ℤ) * msPerDayInt
  let keptEpisodes := db.episodes.filter (fun r => decide (cutoff ≤ r.timestamp))
  let keptPatterns := db.patterns.filter (fun p => decide (patternCutoff ≤ p.last_seen))
  let newLessons := db.lessons.map (fun l =>
    if staleLowUseLesson l now cutoff then { l with deprecated_at := some now } else l)
  ({ db with episodes := keptEpisodes, patterns := keptPatterns, lessons := newLessons },
   { deletedEpisodes := db.episodes.length - keptEpisodes.length
     deletedPatterns := db.patterns.length - keptPatterns.length
     deprecatedLessons := (db.lessons.filter
       (fun l => decide (staleLowUseLesson l now cutoff))).length })

/-- Store states reachable by sequences of `recordExperience` and
`learnFromPattern` calls from the empty store. -/
inductive Reachable : Db → Prop where
  | init : Reachable emptyDb
  | record {db db' : Db} {now : ℤ} {input : RecordExperienceInput}
      {res : RecordExperienceResult} :
      Reachable db → recordExperience db now input = some (db', res) → Reachable db'
  | learn {db db' : Db} {now : ℤ} {input : LearnFromPatternInput}
      {res : LearnFromPatternResult} :
      Reachable db → learnFromPattern db now input = Except.ok (db', res) → Reachable db'

/-! ## Claim C9: episode round trip through the serialization boundary -/

theorem decodeField_encodeField (x : Option Json)
    (h : ∀ j, x = some j → jsTruthy j = true) :
    decodeField (encodeField x) = some x := by
  cases x with
  | none => rfl
  | some j =>
    have ht := h j rfl
    have hne : Json.stringify j ≠ "" := stringify_ne_empty j
    simp [encodeField, ht, decodeField, hne, Json.parse_stringify]

/-- C9: inserting an episode whose structured `problem`/`solution`/`metadata`
payloads are nested JSON values (objects, arrays — including empty ones —
strings, numbers, booleans and null leaves) and reading it back by id yields
deep-equal structures: the `JSON.stringify`/`JSON.parse` round trip through
the store reproduces the original nested values unchanged.  The truthiness
hypotheses reflect the `episode.problem ? JSON.stringify(...) : null` guard
in `insertEpisode` (an absent payload is stored as NULL; payloads are
objects, which are always truthy); the id hypothesis is the auto-increment
store invariant. -/
theorem C9_insertEpisode_getEpisode_roundtrip (db : Db) (e : Episode)
    (hid : ∀ r ∈ db.episodes, r.id ≠ db.nextEpisodeId)
    (hp : ∀ j, e.problem = some j → jsTruthy j = true)
    (hs : ∀ j, e.solution = some j → jsTruthy j = true)
    (hm : ∀ j, e.metadata = some j → jsTruthy j = true) :
    getEpisode (insertEpisode db e).1 (insertEpisode db e).2 =
      some { e with id := db.nextEpisodeId } := by
  unfold getEpisode insertEpisode findEpisodeRow
  simp only
  rw [List.find?_append]
  have hnone : db.episodes.find? (fun r => r.id == db.nextEpisodeId) = none := by
    rw [List.find?_eq_none]
    intro r hr
    simpa using hid r hr
  rw [hnone]
  simp only [Option.none_or, List.find?_cons, List.find?_nil, beq_self_eq_true]
  show rowToEpisode _ = _
  unfold rowToEpisode
  rw [decodeField_encodeField e.problem hp, decodeField_encodeField e.solution hs,
    decodeField_encodeField e.metadata hm]
  rfl

/-- A concrete episode with nested payloads: an escaped-quote string, an
empty object, null leaves, a negative number, and empty arrays. -/
noncomputable def exEpisodeC9 : Episode :=
  { id := 0, timestamp := 5, operation_type := "search", server_name := some "s1"
    problem := some (Json.obj [("query", Json.str "find \"x\""),
      ("constraints", Json.obj []),
      ("context", Json.arr [Json.null, Json.num (-3), Json.bool false, Json.arr []])])
    solution := none
    outcome := Outcome.success
    metadata := some (Json.obj [("environment", Json.str "prod"),
      ("dependencies", Json.arr [])])
    quality_score := some (1/2), duration_ms := some 10, notes := none
    novelty_score := 1, effectiveness_score := 1, generalizability_score := 1/2
    utility_score := 9/10, client_domain := none, problem_category := none
    vertical := none, company_size := none }

/-- Witness for C9 at a concrete episode. -/
theorem C9_insertEpisode_getEpisode_roundtrip_witness :
    (∀ r ∈ emptyDb.episodes, r.id ≠ emptyDb.nextEpisodeId) ∧
    getEpisode (insertEpisode emptyDb exEpisodeC9).1 (insertEpisode emptyDb exEpisodeC9).2 =
      some { exEpisodeC9 with id := emptyDb.nextEpisodeId } :=
  ⟨by simp [emptyDb],
    C9_insertEpisode_getEpisode_roundtrip emptyDb exEpisodeC9
      (by simp [emptyDb])
      (by intro j h; injection h with h; subst h; decide)
      (by intro j h; cases h)
      (by intro j h; injection h with h; subst h; decide)⟩

/-! ## Claims C1 and C2: applying a lesson -/

theorem find_id_map (ls : List LessonRec) (id : ℕ) (f : LessonRec → LessonRec)
    (hf : ∀ x, (f x).id = x.id) (l : LessonRec)
    (h : ls.find? (fun x => x.id == id) = some l) :
    (ls.map (fun x => if x.id == id then f x else x)).find? (fun x => x.id == id) =
      some (f l) := by
  induction ls with
  | nil => simp at h
  | cons a t ih =>
    by_cases ha : (a.id == id) = true
    · rw [@List.find?_cons_of_pos _ (fun x => x.id == id) a t ha] at h
      injection h with h
      subst h
      simp only [List.map_cons, if_pos ha]
      exact @List.find?_cons_of_pos _ (fun x => x.id == id) (f a) _
        (by simp only []; rw [show (f a).id = a.id from hf a]; exact ha)
    · rw [@List.find?_cons_of_neg _ (fun x => x.id == id) a t (by simp [ha])] at h
      simp only [List.map_cons, if_neg ha]
      rw [@List.find?_cons_of_neg _ (fun x => x.id == id) a _ (by simp [ha])]
      exact ih h

theorem getLesson_updateLesson_self (db : Db) (id : ℕ) (u : LessonUpdate)
    (l : LessonRec) (h : getLesson db id = some l) :
    getLesson (updateLesson db id u) id = some (applyLessonUpdate u l) :=
  find_id_map db.lessons id (applyLessonUpdate u) (fun _ => rfl) l h

theorem getLesson_deprecateLesson_self (db : Db) (id : ℕ) (now : ℤ)
    (l : LessonRec) (h : getLesson db id = some l) :
    getLesson (deprecateLesson db id now) id =
      some { l with deprecated_at := some now } :=
  find_id_map db.lessons id (fun x => { x with deprecated_at := some now })
    (fun _ => rfl) l h

theorem lessons_updatePattern (db : Db) (pid : ℕ) (u : PatternUpdate) :
    (updatePattern db pid u).lessons = db.lessons := rfl

theorem getLesson_updatePattern (db : Db) (pid : ℕ) (u : PatternUpdate) (id : ℕ) :
    getLesson (updatePattern db pid u) id = getLesson db id := rfl

theorem lessons_patternSideUpdate (db : Db) (p : Option ℕ) (delta : ℕ) (now : ℤ) :
    (patternSideUpdate db p delta now).lessons = db.lessons := by
  cases p with
  | none => rfl
  | some pid =>
    show (match getPattern db pid with
      | none => db
      | some pattern =>
        updatePattern db pid
          { times_applied := some (pattern.times_applied + 1)
            times_succeeded := some (pattern.times_succeeded + delta)
            last_validated := some now }).lessons = db.lessons
    rcases hg : getPattern db pid with _ | pattern
    · rfl
    · rfl

theorem getLesson_patternSideUpdate (db : Db) (p : Option ℕ) (delta : ℕ) (now : ℤ)
    (id : ℕ) :
    getLesson (patternSideUpdate db p delta now) id = getLesson db id := by
  unfold getLesson
  rw [lessons_patternSideUpdate]

/-- The confidence-update formula exactly as claim C1 states it (spec §4.4),
used to compare against `applyLesson`: a prior/evidence blend with
`priorWeight = max(0.3, 1 − ln(timesApplied+1)/5)` over the post-increment
application count, `evidenceConfidence` 1.0/0.5/0.0 by outcome, clamped to
`[0.1, 0.95]`. -/
noncomputable def specNewConfidence (l : LessonRec) (outcome : Outcome) (now : ℤ) : ℝ :=
  let previousConfidence := calculateCurrentConfidence l.initial_confidence
    l.decay_constant l.last_validated now
  let timesApplied := l.times_applied + 1
  let successRate := ((l.times_succeeded : ℝ) +
      (match outcome with
       | Outcome.success => 1
       | Outcome.partialResult => 0.5
       | Outcome.failure => 0)) / (timesApplied : ℝ)
  let priorWeight := max 0.3 (1 - Real.log ((timesApplied : ℝ) + 1) / 5)
  let evidenceWeight := 1 - priorWeight
  let evidenceConfidence : ℝ :=
    match outcome with
    | Outcome.success => 1.0
    | Outcome.partialResult => 0.5
    | Outcome.failure => 0.0
  max 0.1 (min 0.95 (priorWeight * previousConfidence +
    evidenceWeight * (0.7 * successRate + 0.3 * evidenceConfidence)))

/-- C1: `applyLesson` fails with `NotFound` when the lesson id does not
resolve; otherwise it computes the new confidence by the prior/evidence
blend of the specification, clamps it to `[0.1, 0.95]`, persists it as
`initial_confidence` with `last_validated = now`, and deprecates the lesson
when the new confidence is below the 0.1 threshold with at least 5
applications. -/
theorem C1_applyLesson_spec (db : Db) (now : ℤ) (input : ApplyLessonInput) :
    (getLesson db input.lesson_id = none →
      applyLesson db now input = Except.error ExpError.NotFound) ∧
    (∀ l, getLesson db input.lesson_id = some l →
      ∃ db2 res, applyLesson db now input = Except.ok (db2, res) ∧
        res.previous_confidence = calculateCurrentConfidence l.initial_confidence
          l.decay_constant l.last_validated now ∧
        res.new_confidence = specNewConfidence l input.outcome now ∧
        res.total_applications = l.times_applied + 1 ∧
        ∃ l2, getLesson db2 input.lesson_id = some l2 ∧
          l2.initial_confidence = specNewConfidence l input.outcome now ∧
          l2.last_validated = now ∧
          (specNewConfidence l input.outcome now < CONFIDENCE_THRESHOLDS.deprecation →
            5 ≤ l.times_applied + 1 → l2.deprecated_at = some now)) := by
  obtain ⟨lid, outc, nts⟩ := input
  constructor
  · intro h
    unfold applyLesson
    rw [h]
  · intro l hl
    unfold applyLesson
    rw [hl]
    simp only
    refine ⟨_, _, rfl, ?_⟩
    have hupd := getLesson_updateLesson_self db lid
      { initial_confidence := some (max 0.1 (min 0.95
          ((max 0.3 (1 - Real.log ((↑(l.times_applied + 1) : ℝ) + 1) / 5)) *
            calculateCurrentConfidence l.initial_confidence l.decay_constant
              l.last_validated now +
            (1 - max 0.3 (1 - Real.log ((↑(l.times_applied + 1) : ℝ) + 1) / 5)) *
              (0.7 * (((l.times_succeeded : ℝ) +
                (if outc = Outcome.success then 1
                 else if outc = Outcome.partialResult then 0.5 else 0)) /
                  (↑(l.times_applied + 1) : ℝ)) +
                0.3 * (if outc = Outcome.success then 1.0
                  else if outc = Outcome.partialResult then 0.5 else 0.0)))))
        last_validated := some now
        times_applied := some (l.times_applied + 1)
        times_succeeded := some (jsRound ((l.times_succeeded : ℝ) +
          (if outc = Outcome.success then 1
           else if outc = Outcome.partialResult then 0.5 else 0))) } l hl
    cases outc with
    | success =>
      simp +decide only [if_true, if_false, ite_true, ite_false]
      refine ⟨by trivial, by trivial, by trivial, ?_⟩
      rw [getLesson_patternSideUpdate]
      split
      · next hcond =>
        exact ⟨_, getLesson_deprecateLesson_self _ lid now _ hupd, rfl, rfl,
          fun _ _ => rfl⟩
      · next hcond =>
        exact ⟨_, hupd, rfl, rfl, fun h1 h2 => absurd ⟨h1, h2⟩ hcond⟩
    | failure =>
      simp +decide only [if_true, if_false, ite_true, ite_false]
      refine ⟨by trivial, by trivial, by trivial, ?_⟩
      rw [getLesson_patternSideUpdate]
      split
      · next hcond =>
        exact ⟨_, getLesson_deprecateLesson_self _ lid now _ hupd, rfl, rfl,
          fun _ _ => rfl⟩
      · next hcond =>
        exact ⟨_, hupd, rfl, rfl, fun h1 h2 => absurd ⟨h1, h2⟩ hcond⟩
    | partialResult =>
      simp +decide only [if_true, if_false, ite_true, ite_false]
      refine ⟨by trivial, by trivial, by trivial, ?_⟩
      rw [getLesson_patternSideUpdate]
      split
      · next hcond =>
        exact ⟨_, getLesson_deprecateLesson_self _ lid now _ hupd, rfl, rfl,
          fun _ _ => rfl⟩
      · next hcond =>
        exact ⟨_, hupd, rfl, rfl, fun h1 h2 => absurd ⟨h1, h2⟩ hcond⟩

/-- A concrete stored lesson. -/
noncomputable def exLesson1 : LessonRec :=
  { id := 1, statement := "use cache", pattern_id := none, contexts := none
    initial_confidence := 1/2, decay_constant := 0, last_validated := 0
    times_applied := 0, times_succeeded := 0, created_at := 0, deprecated_at := none }

/-- A store holding one lesson. -/
noncomputable def exDbL : Db := { emptyDb with lessons := [exLesson1] }

/-- Witness for C1 at a concrete store and lesson. -/
theorem C1_applyLesson_spec_witness :
    ∃ db2 res, applyLesson exDbL 7 { lesson_id := 1, outcome := Outcome.success } =
        Except.ok (db2, res) ∧
      res.previous_confidence = calculateCurrentConfidence exLesson1.initial_confidence
        exLesson1.decay_constant exLesson1.last_validated 7 ∧
      res.new_confidence = specNewConfidence exLesson1 Outcome.success 7 ∧
      res.total_applications = exLesson1.times_applied + 1 ∧
      ∃ l2, getLesson db2 1 = some l2 ∧
        l2.initial_confidence = specNewConfidence exLesson1 Outcome.success 7 ∧
        l2.last_validated = 7 ∧
        (specNewConfidence exLesson1 Outcome.success 7 < CONFIDENCE_THRESHOLDS.deprecation →
          5 ≤ exLesson1.times_applied + 1 → l2.deprecated_at = some 7) :=
  (C1_applyLesson_spec exDbL 7 { lesson_id := 1, outcome := Outcome.success }).2
    exLesson1 rfl

/-- The auto-deprecation branch cannot fire when the new confidence is at
least the clamp floor. -/
theorem applyLesson_db2_eq (db1 : Db) (lid : ℕ) (now : ℤ) (c : ℝ) (ta : ℕ)
    (hc : 0.1 ≤ c) :
    (if c < CONFIDENCE_THRESHOLDS.deprecation ∧ ta ≥ 5
     then deprecateLesson db1 lid now else db1) = db1 :=
  if_neg (fun h => absurd h.1 (not_lt.mpr hc))

/-- C2: a successful `applyLesson` call persists an `initial_confidence`
inside `[0.1, 0.95]` (the clamp), and never sets `deprecated_at` on any
lesson — the auto-deprecation branch (`newConfidence < 0.1`) is unreachable
because the clamp floor equals the deprecation threshold. -/
theorem C2_applyLesson_clamped_no_deprecation (db : Db) (now : ℤ)
    (input : ApplyLessonInput) (l : LessonRec)
    (hl : getLesson db input.lesson_id = some l) :
    ∃ db2 res, applyLesson db now input = Except.ok (db2, res) ∧
      0.1 ≤ res.new_confidence ∧ res.new_confidence ≤ 0.95 ∧
      (∀ l2 ∈ db2.lessons, l2.id = input.lesson_id →
        0.1 ≤ l2.initial_confidence ∧ l2.initial_confidence ≤ 0.95) ∧
      db2.lessons.map (fun x => (x.id, x.deprecated_at)) =
        db.lessons.map (fun x => (x.id, x.deprecated_at)) := by
  unfold applyLesson
  rw [hl]
  simp only
  refine ⟨_, _, rfl, le_max_left _ _, max_le (by norm_num) (min_le_left _ _), ?_, ?_⟩
  · intro l2 hl2 hid
    rw [lessons_patternSideUpdate, applyLesson_db2_eq _ _ _ _ _ (le_max_left _ _)] at hl2
    unfold updateLesson at hl2
    simp only [List.mem_map] at hl2
    obtain ⟨x, hx, rfl⟩ := hl2
    by_cases hxid : (x.id == input.lesson_id) = true
    · rw [if_pos hxid]
      exact ⟨le_max_left _ _, max_le (by norm_num) (min_le_left _ _)⟩
    · rw [if_neg hxid] at hid ⊢
      exact absurd (by simp [hid]) hxid
  · rw [lessons_patternSideUpdate, applyLesson_db2_eq _ _ _ _ _ (le_max_left _ _)]
    unfold updateLesson
    simp only [List.map_map]
    apply List.map_congr_left
    intro x hx
    by_cases hxid : (x.id == input.lesson_id) = true
    · simp only [Function.comp_apply, if_pos hxid]
      rfl
    · simp only [Function.comp_apply, if_neg hxid]

/-- Witness for C2 at a concrete store and lesson. -/
theorem C2_applyLesson_clamped_no_deprecation_witness :
    ∃ db2 res, applyLesson exDbL 7 { lesson_id := 1, outcome := Outcome.failure } =
        Except.ok (db2, res) ∧
      0.1 ≤ res.new_confidence ∧ res.new_confidence ≤ 0.95 ∧
      (∀ l2 ∈ db2.lessons, l2.id = 1 →
        0.1 ≤ l2.initial_confidence ∧ l2.initial_confidence ≤ 0.95) ∧
      db2.lessons.map (fun x => (x.id, x.deprecated_at)) =
        exDbL.lessons.map (fun x => (x.id, x.deprecated_at)) :=
  C2_applyLesson_clamped_no_deprecation exDbL 7
    { lesson_id := 1, outcome := Outcome.failure } exLesson1 rfl

/-! ## Claim C5: learning a lesson from a pattern -/

/-- The spec's formula for the initial confidence of a learned lesson:
`clamp(0.3, 0.9, 0.4 + 0.3*successRate + min(0.3, 0.1*ln(n+1)) + 0.2*meanUtility)`
over the resolved episodes. -/
noncomputable def specInitialConfidence (episodes : List Episode) : ℝ :=
  min 0.9 (max 0.3
    (0.4 + 0.3 * (((episodes.filter (fun e => e.outcome == Outcome.success)).length : ℝ) /
        (episodes.length : ℝ)) +
      min 0.3 (0.1 * Real.log ((episodes.length : ℝ) + 1)) +
      0.2 * (((episodes.map (fun e => e.utility_score)).sum) / (episodes.length : ℝ))))

/-- The spec's formula agrees with the code's operand order. -/
theorem specInitialConfidence_eq (episodes : List Episode) :
    specInitialConfidence episodes =
      min 0.9 (max 0.3
        (0.4 + (((episodes.filter (fun e => e.outcome == Outcome.success)).length : ℝ) /
            (episodes.length : ℝ)) * 0.3 +
          min 0.3 (Real.log ((episodes.length : ℝ) + 1) * 0.1) +
          (((episodes.map (fun e => e.utility_score)).sum) / (episodes.length : ℝ)) * 0.2)) := by
  unfold specInitialConfidence
  rw [mul_comm (0.1 : ℝ), mul_comm (0.3 : ℝ), mul_comm (0.2 : ℝ)]

/-- Looking up a freshly inserted lesson by its returned id finds it. -/
theorem getLesson_insertLesson (db : Db) (l : LessonRec)
    (hfresh : ∀ x ∈ db.lessons, x.id ≠ db.nextLessonId) :
    getLesson (insertLesson db l).1 (insertLesson db l).2 =
      some { l with id := db.nextLessonId } := by
  unfold getLesson insertLesson
  simp only
  rw [List.find?_append]
  have hnone : db.lessons.find? (fun x => x.id == db.nextLessonId) = none := by
    rw [List.find?_eq_none]
    intro x hx
    simpa using hfresh x hx
  rw [hnone]
  simp only [Option.none_or, List.find?_cons, List.find?_nil, beq_self_eq_true]

/-- C5: when the supplied episode ids resolve to `eps`, `learnFromPattern`
fails with `InsufficientEvidence` if fewer than 3 episodes resolved, and with
at least 3 it succeeds, returns a pattern id, reports the spec's clamped
initial confidence, and persists a lesson carrying that same confidence. -/
theorem C5_learnFromPattern_evidence (db : Db) (now : ℤ)
    (input : LearnFromPatternInput) (eps : List Episode)
    (hids : getEpisodesByIds db input.episode_ids = some eps)
    (hfresh : ∀ x ∈ db.lessons, x.id ≠ db.nextLessonId) :
    (eps.length < 3 →
      learnFromPattern db now input = .error ExpError.InsufficientEvidence) ∧
    (3 ≤ eps.length →
      ∃ db2 res, learnFromPattern db now input = .ok (db2, res) ∧
        res.pattern_id ≠ none ∧
        res.initial_confidence = specInitialConfidence eps ∧
        ∃ l2, getLesson db2 res.lesson_id = some l2 ∧
          l2.initial_confidence = specInitialConfidence eps) := by
  constructor
  · intro h3
    unfold learnFromPattern
    rw [hids]
    simp only
    rw [if_pos (show eps.length < PATTERN_CONFIG.minEpisodes from h3)]
  · intro h3
    unfold learnFromPattern
    rw [hids]
    simp only
    rw [if_neg (show ¬ eps.length < PATTERN_CONFIG.minEpisodes from not_lt.mpr h3)]
    rcases hfind : findPatternByDescription db input.pattern_description with _ | p
    · simp only
      refine ⟨_, _, rfl, ?_, ?_, ?_⟩
      · exact Option.some_ne_none _
      · exact (specInitialConfidence_eq eps).symm
      · exact ⟨_, getLesson_insertLesson _ _ hfresh, (specInitialConfidence_eq eps).symm⟩
    · simp only
      refine ⟨_, _, rfl, ?_, ?_, ?_⟩
      · exact Option.some_ne_none _
      · exact (specInitialConfidence_eq eps).symm
      · exact ⟨_, getLesson_insertLesson _ _ hfresh, (specInitialConfidence_eq eps).symm⟩

/-- A concrete stored episode row (no structured payloads). -/
noncomputable def exRowC5 (i : ℕ) : EpisodeRow :=
  { id := i, timestamp := (i : ℤ), operation_type := "deploy", server_name := none
    problem := none, solution := none, outcome := Outcome.success, metadata := none
    quality_score := none, duration_ms := none, notes := none
    novelty_score := 1, effectiveness_score := 1, generalizability_score := 1/2
    utility_score := 1/2, client_domain := none, problem_category := none
    vertical := none, company_size := none }

/-- A store holding three success episodes of one operation type. -/
noncomputable def exDbE : Db :=
  { emptyDb with episodes := [exRowC5 1, exRowC5 2, exRowC5 3], nextEpisodeId := 4 }

/-- The episode `exRowC5 i` resolves to. -/
noncomputable def exEpDeploy (i : ℕ) : Episode :=
  { id := i, timestamp := (i : ℤ), operation_type := "deploy", server_name := none
    problem := none, solution := none, outcome := Outcome.success, metadata := none
    quality_score := none, duration_ms := none, notes := none
    novelty_score := 1, effectiveness_score := 1, generalizability_score := 1/2
    utility_score := 1/2, client_domain := none, problem_category := none
    vertical := none, company_size := none }

/-- The episodes of `exDbE` as the engine resolves them. -/
noncomputable def exEpsC5 : List Episode := [exEpDeploy 1, exEpDeploy 2, exEpDeploy 3]

/-- Witness for C5 at a concrete store and input. -/
theorem C5_learnFromPattern_evidence_witness :
    ∃ db2 res, learnFromPattern exDbE 100
          { pattern_description := "deploy needs config"
            episode_ids := [1, 2, 3], lesson_statement := "check config" } =
        Except.ok (db2, res) ∧
      res.pattern_id ≠ none ∧
      res.initial_confidence = specInitialConfidence exEpsC5 ∧
      ∃ l2, getLesson db2 res.lesson_id = some l2 ∧
        l2.initial_confidence = specInitialConfidence exEpsC5 :=
  (C5_learnFromPattern_evidence exDbE 100
      { pattern_description := "deploy needs config"
        episode_ids := [1, 2, 3], lesson_statement := "check config" }
      exEpsC5 rfl (by simp [exDbE, emptyDb])).2 (by simp [exEpsC5])

/-! ## Claim C4: the active-lesson query -/

/-- Soundness of `getActiveLessons` membership. -/
theorem getActiveLessons_mem_spec (db : Db) (now : ℤ) (minC : ℝ)
    (x : LessonWithConfidence) (hx : x ∈ getActiveLessons db now minC) :
    x.lesson ∈ db.lessons ∧ x.lesson.deprecated_at = none ∧
    x.current_confidence = calculateCurrentConfidence x.lesson.initial_confidence
      x.lesson.decay_constant x.lesson.last_validated now ∧
    minC ≤ x.current_confidence := by
  unfold getActiveLessons at hx
  rw [List.mem_filter] at hx
  obtain ⟨hmem, hge⟩ := hx
  rw [List.mem_map] at hmem
  obtain ⟨l, hl, rfl⟩ := hmem
  unfold sortByInitialConfidenceDesc at hl
  have hl2 := (List.perm_insertionSort _ _).subset hl
  rw [List.mem_filter] at hl2
  exact ⟨hl2.1, of_decide_eq_true hl2.2, rfl, of_decide_eq_true hge⟩

/-- Completeness of `getActiveLessons` membership. -/
theorem getActiveLessons_mem_of (db : Db) (now : ℤ) (minC : ℝ) (l : LessonRec)
    (hl : l ∈ db.lessons) (hdep : l.deprecated_at = none)
    (hge : minC ≤ calculateCurrentConfidence l.initial_confidence l.decay_constant
      l.last_validated now) :
    (⟨l, calculateCurrentConfidence l.initial_confidence l.decay_constant
      l.last_validated now⟩ : LessonWithConfidence) ∈ getActiveLessons db now minC := by
  unfold getActiveLessons
  rw [List.mem_filter]
  refine ⟨?_, decide_eq_true hge⟩
  rw [List.mem_map]
  refine ⟨l, ?_, rfl⟩
  unfold sortByInitialConfidenceDesc
  exact (List.perm_insertionSort _ _).mem_iff.mpr
    (List.mem_filter.mpr ⟨hl, decide_eq_true hdep⟩)

/-- The query's output is sorted by the stored `initial_confidence`,
highest first. -/
theorem getActiveLessons_sorted_initial (db : Db) (now : ℤ) (minC : ℝ) :
    (getActiveLessons db now minC).Sorted
      (fun a b => b.lesson.initial_confidence ≤ a.lesson.initial_confidence) := by
  unfold getActiveLessons
  apply List.Pairwise.filter
  rw [List.pairwise_map]
  haveI h1 : IsTotal LessonRec (fun a b => b.initial_confidence ≤ a.initial_confidence) :=
    ⟨fun a b => le_total b.initial_confidence a.initial_confidence⟩
  haveI h2 : IsTrans LessonRec (fun a b => b.initial_confidence ≤ a.initial_confidence) :=
    ⟨fun _ _ _ hab hbc => le_trans hbc hab⟩
  exact List.sorted_insertionSort _ _

/-- C4 (amended): `getActiveLessons(minConfidence)` returns exactly the
lessons whose `deprecated_at` is null and whose decayed confidence is at
least the threshold, each paired with its decayed confidence — but sorted
descending by the STORED `initial_confidence` (the SQL `ORDER BY
initial_confidence DESC`), not by the decayed confidence; and a lesson on
which `deprecateLesson` has been called is excluded for every threshold. -/
theorem C4_getActiveLessons_amended (db : Db) (now : ℤ) (minC : ℝ) :
    (∀ x ∈ getActiveLessons db now minC,
        x.lesson ∈ db.lessons ∧ x.lesson.deprecated_at = none ∧
        x.current_confidence = calculateCurrentConfidence x.lesson.initial_confidence
          x.lesson.decay_constant x.lesson.last_validated now ∧
        minC ≤ x.current_confidence) ∧
    (∀ l ∈ db.lessons, l.deprecated_at = none →
        minC ≤ calculateCurrentConfidence l.initial_confidence l.decay_constant
          l.last_validated now →
        ∃ x ∈ getActiveLessons db now minC, x.lesson = l) ∧
    (getActiveLessons db now minC).Sorted
      (fun a b => b.lesson.initial_confidence ≤ a.lesson.initial_confidence) ∧
    (∀ i t, ∀ x ∈ getActiveLessons (deprecateLesson db i t) now minC,
        x.lesson.id ≠ i) := by
  refine ⟨fun x hx => getActiveLessons_mem_spec db now minC x hx,
    fun l hl hdep hge => ⟨_, getActiveLessons_mem_of db now minC l hl hdep hge, rfl⟩,
    getActiveLessons_sorted_initial db now minC, ?_⟩
  intro i t x hx hid
  obtain ⟨hmem, hdep, -, -⟩ := getActiveLessons_mem_spec _ _ _ x hx
  unfold deprecateLesson at hmem
  simp only [List.mem_map] at hmem
  obtain ⟨l, hl, heq⟩ := hmem
  by_cases hb : (l.id == i) = true
  · rw [if_pos hb] at heq
    rw [← heq] at hdep
    simp at hdep
  · rw [if_neg hb] at heq
    rw [← heq] at hid
    exact hb (by simp [hid])

/-- A lesson with high stored confidence decayed for one day at rate 1. -/
noncomputable def exL_A : LessonRec :=
  { id := 1, statement := "A", pattern_id := none, contexts := none
    initial_confidence := 9/10, decay_constant := 1, last_validated := 0
    times_applied := 0, times_succeeded := 0, created_at := 0, deprecated_at := none }

/-- A lesson with lower stored confidence and no decay. -/
noncomputable def exL_B : LessonRec :=
  { id := 2, statement := "B", pattern_id := none, contexts := none
    initial_confidence := 4/5, decay_constant := 0, last_validated := 0
    times_applied := 0, times_succeeded := 0, created_at := 0, deprecated_at := none }

/-- A store holding the two lessons above. -/
noncomputable def exDbC4 : Db := { emptyDb with lessons := [exL_A, exL_B], nextLessonId := 3 }

/-- Counterexample to C4 as stated: one day after validation, lesson A's
decayed confidence (0.9·e⁻¹ ≈ 0.331) is below lesson B's (0.8), yet the
query returns A first, because the code orders by the stored
`initial_confidence`, not by the decayed confidence. -/
theorem C4_getActiveLessons_counterexample :
    ¬ (getActiveLessons exDbC4 msPerDayInt 0).Sorted
      (fun a b => b.current_confidence ≤ a.current_confidence) := by
  have hA : calculateCurrentConfidence exL_A.initial_confidence exL_A.decay_constant
      exL_A.last_validated msPerDayInt = 9/10 * Real.exp (-1) := by
    simp only [calculateCurrentConfidence, exL_A]
    norm_num [msPerDay, msPerDayInt]
  have hB : calculateCurrentConfidence exL_B.initial_confidence exL_B.decay_constant
      exL_B.last_validated msPerDayInt = 4/5 := by
    simp only [calculateCurrentConfidence, exL_B]
    norm_num [Real.exp_zero]
  have heval : getActiveLessons exDbC4 msPerDayInt 0 =
      [⟨exL_A, 9/10 * Real.exp (-1)⟩, ⟨exL_B, 4/5⟩] := by
    unfold getActiveLessons
    rw [show exDbC4.lessons.filter (fun l => l.deprecated_at = none) = [exL_A, exL_B]
      from rfl]
    rw [show sortByInitialConfidenceDesc [exL_A, exL_B] = [exL_A, exL_B] by
      unfold sortByInitialConfidenceDesc
      simp only [List.insertionSort, List.orderedInsert]
      rw [if_pos (show exL_B.initial_confidence ≤ exL_A.initial_confidence by
        norm_num [exL_A, exL_B])]]
    simp only [List.map_cons, List.map_nil]
    rw [hA, hB]
    have h1 : (0:ℝ) ≤ 9/10 * Real.exp (-1) := by positivity
    have h2 : (0:ℝ) ≤ 4/5 := by norm_num
    simp only [List.filter_cons, List.filter_nil, decide_eq_true h1, decide_eq_true h2,
      eq_self_iff_true, if_true]
  intro hs
  rw [heval] at hs
  have h := (List.sorted_cons.mp hs).1 ⟨exL_B, 4/5⟩ (List.mem_singleton.mpr rfl)
  have h' : (4/5 : ℝ) ≤ 9/10 * Real.exp (-1) := h
  have hexp : Real.exp (-1) < 8/9 := by
    rw [Real.exp_neg, show ((8:ℝ)/9) = ((9:ℝ)/8)⁻¹ by norm_num]
    exact inv_lt_inv_of_lt (by norm_num)
      (lt_trans (by norm_num) Real.exp_one_gt_d9)
  linarith

/-! ## Claim C3: the pattern detector -/

/-- Every element of a successful `mapM` image comes from an element of the
input list. -/
theorem mapM_mem_exists {α β : Type} (f : α → Option β) :
    ∀ (l : List α) (l2 : List β), l.mapM f = some l2 →
      ∀ b ∈ l2, ∃ a ∈ l, f a = some b := by
  intro l
  induction l with
  | nil =>
    intro l2 h b hb
    rw [List.mapM_nil] at h
    injection h with h
    subst h
    simp at hb
  | cons a as ih =>
    intro l2 h b hb
    rw [List.mapM_cons] at h
    simp only [Option.pure_def, Option.bind_eq_bind, Option.bind_eq_some,
      Option.some.injEq] at h
    obtain ⟨b0, hfa, bs, hrest, heq⟩ := h
    subst heq
    rcases List.mem_cons.mp hb with rfl | hb2
    · exact ⟨a, List.mem_cons_self a as, hfa⟩
    · obtain ⟨a2, ha2, hfa2⟩ := ih bs hrest b hb2
      exact ⟨a2, List.mem_cons_of_mem _ ha2, hfa2⟩

/-- Episodes returned by a `since`-bounded type query lie inside the window. -/
theorem getEpisodesByType_timestamp (db : Db) (ty : String) (s : ℤ) (lim : ℕ)
    (eps : List Episode) (h : getEpisodesByType db ty (some s) lim = some eps) :
    ∀ e ∈ eps, s ≤ e.timestamp := by
  intro e he
  unfold getEpisodesByType at h
  obtain ⟨row, hrow, hconv⟩ := mapM_mem_exists rowToEpisode _ eps h e he
  have hrow2 : row ∈ db.episodes.filter (fun r =>
      r.operation_type == ty && decide (s ≤ r.timestamp)) := by
    unfold episodeRowsByType at hrow
    have h1 := List.mem_of_mem_take hrow
    unfold sortByTimestampDesc at h1
    exact (List.perm_insertionSort _ _).subset h1
  rw [List.mem_filter, Bool.and_eq_true] at hrow2
  have hts : s ≤ row.timestamp := of_decide_eq_true hrow2.2.2
  have hts2 : e.timestamp = row.timestamp := by
    unfold rowToEpisode at hconv
    simp only [Option.pure_def, Option.bind_eq_bind, Option.bind_eq_some,
      Option.some.injEq] at hconv
    obtain ⟨p, hp, sol, hsol, m, hm, heq⟩ := hconv
    rw [← heq]
  rw [hts2]
  exact hts

/-- Looking up a freshly inserted pattern by its returned id finds it. -/
theorem getPattern_insertPattern (db : Db) (p : PatternRec)
    (hfresh : ∀ x ∈ db.patterns, x.id ≠ db.nextPatternId) :
    getPattern (insertPattern db p).1 (insertPattern db p).2 =
      some { p with id := db.nextPatternId } := by
  unfold getPattern insertPattern
  simp only
  rw [List.find?_append]
  have hnone : db.patterns.find? (fun x => x.id == db.nextPatternId) = none := by
    rw [List.find?_eq_none]
    intro x hx
    simpa using hfresh x hx
  rw [hnone]
  simp only [Option.none_or, List.find?_cons, List.find?_nil, beq_self_eq_true]

/-- The detector's discrimination weight over the similar episodes:
`successRate · ln(n+1) · e^(−k·meanAgeDays)`. -/
noncomputable def specDiscriminationWeightOf (similar : List Episode) (now : ℤ) : ℝ :=
  ((similar.filter (fun e => e.outcome == Outcome.success)).length : ℝ) /
      (similar.length : ℝ) *
    Real.log ((similar.length : ℝ) + 1) *
    Real.exp (-PATTERN_CONFIG.decayConstant *
      ((similar.map (fun e => ((now - e.timestamp : ℤ) : ℝ))).sum /
        (similar.length : ℝ) / msPerDay))

/-- C3: given the similar episodes of the recorded episode's operation type
inside the 30-day recency window, the detector (a) creates no pattern when
fewer than `minEpisodes = 3` are found, (b) creates or updates no pattern —
even if one matching the description exists — whenever the computed
discrimination weight `successRate·ln(n+1)·e^(−k·meanAgeDays)` is below
`minDiscriminationWeight = 0.3`, and (c) with at least 3 episodes, all
successes, and no existing matching pattern, appends one new pattern with
`pattern_type = success` and a positive discrimination weight. -/
theorem C3_detectPatterns_thresholds (db : Db) (now : ℤ) (ep : Episode)
    (similar : List Episode)
    (hsim : getEpisodesByType db ep.operation_type
      (some (now - (PATTERN_CONFIG.recencyWindowDays : ℤ) * msPerDayInt)) 500 =
        some similar) :
    (similar.length < 3 → detectPatterns db now ep = some ([], db)) ∧
    (specDiscriminationWeightOf similar now < 0.3 →
      detectPatterns db now ep = some ([], db)) ∧
    (3 ≤ similar.length → (∀ e ∈ similar, e.outcome = Outcome.success) →
      findPatternByDescription db ep.operation_type = none →
      (∀ q ∈ db.patterns, q.id ≠ db.nextPatternId) →
      ∃ p db2, detectPatterns db now ep = some ([p], db2) ∧
        p.pattern_type = PatternType.success ∧
        0 < p.discrimination_weight ∧
        db2.patterns = db.patterns ++ [p]) := by
  refine ⟨?_, ?_, ?_⟩
  · intro h3
    unfold detectPatterns
    simp only
    rw [hsim]
    simp only
    rw [if_pos (show similar.length < PATTERN_CONFIG.minEpisodes from h3)]
  · intro hw
    unfold detectPatterns
    simp only
    rw [hsim]
    simp only
    by_cases h3 : similar.length < PATTERN_CONFIG.minEpisodes
    · rw [if_pos h3]
    · rw [if_neg h3]
      split
      · rfl
      · rename_i hcond
        exact absurd hw hcond
  · intro h3 hsucc hfind hfresh
    have htimes := getEpisodesByType_timestamp _ _ _ _ _ hsim
    have hn0 : (similar.length : ℝ) ≠ 0 := Nat.cast_ne_zero.mpr (by omega)
    have hlen0 : (0:ℝ) < (similar.length : ℝ) := Nat.cast_pos.mpr (by omega)
    have hfe : similar.filter (fun e => e.outcome == Outcome.success) = similar :=
      List.filter_eq_self.mpr (fun a ha => by simp [hsucc a ha])
    have hsr : ((similar.filter (fun e => e.outcome == Outcome.success)).length : ℝ) /
        (similar.length : ℝ) = 1 := by
      rw [hfe]
      exact div_self hn0
    have hage : (similar.map (fun e => ((now - e.timestamp : ℤ) : ℝ))).sum /
        (similar.length : ℝ) / msPerDay ≤ 30 := by
      have hbound : ∀ x ∈ similar.map (fun e => ((now - e.timestamp : ℤ) : ℝ)),
          x ≤ 30 * msPerDay := by
        intro x hx
        rw [List.mem_map] at hx
        obtain ⟨e, he, rfl⟩ := hx
        have ht := htimes e he
        have h30 : (now - e.timestamp : ℤ) ≤ 30 * msPerDayInt := by
          have h30' : (PATTERN_CONFIG.recencyWindowDays : ℤ) = 30 := rfl
          rw [h30'] at ht
          omega
        calc ((now - e.timestamp : ℤ) : ℝ) ≤ ((30 * msPerDayInt : ℤ) : ℝ) :=
              Int.cast_le.mpr h30
          _ = 30 * msPerDay := by norm_num [msPerDay, msPerDayInt]
      have hsum := List.sum_le_card_nsmul _ _ hbound
      rw [List.length_map, nsmul_eq_mul] at hsum
      rw [div_le_iff (show (0:ℝ) < msPerDay by norm_num [msPerDay]),
        div_le_iff hlen0]
      calc (similar.map (fun e => ((now - e.timestamp : ℤ) : ℝ))).sum ≤
            (similar.length : ℝ) * (30 * msPerDay) := hsum
        _ = 30 * msPerDay * (similar.length : ℝ) := by ring
    have hdw : (0.3:ℝ) ≤ specDiscriminationWeightOf similar now := by
      unfold specDiscriminationWeightOf
      rw [hsr, one_mul]
      have hlog : (1:ℝ) ≤ Real.log ((similar.length : ℝ) + 1) := by
        rw [Real.le_log_iff_exp_le (by positivity)]
        have h3' : (3:ℝ) ≤ (similar.length : ℝ) := by exact_mod_cast h3
        have := Real.exp_one_lt_d9
        linarith
      have hexp : Real.exp (-(0.3:ℝ)) ≤ Real.exp (-PATTERN_CONFIG.decayConstant *
          ((similar.map (fun e => ((now - e.timestamp : ℤ) : ℝ))).sum /
            (similar.length : ℝ) / msPerDay)) := by
        apply Real.exp_le_exp.mpr
        have hk : PATTERN_CONFIG.decayConstant = (0.01:ℝ) := rfl
        rw [hk]
        linarith [hage]
      have h07 : (0.7:ℝ) ≤ Real.exp (-(0.3:ℝ)) := by
        have := Real.add_one_le_exp (-(0.3:ℝ))
        linarith
      calc (0.3:ℝ) ≤ 1 * 0.7 := by norm_num
        _ ≤ Real.log ((similar.length : ℝ) + 1) *
            Real.exp (-PATTERN_CONFIG.decayConstant *
              ((similar.map (fun e => ((now - e.timestamp : ℤ) : ℝ))).sum /
                (similar.length : ℝ) / msPerDay)) :=
          mul_le_mul hlog (le_trans h07 hexp) (by norm_num)
            (le_trans zero_le_one hlog)
    have h06 : ((similar.filter (fun e => e.outcome == Outcome.success)).length : ℝ) /
        (similar.length : ℝ) > 0.6 := by
      rw [hsr]
      norm_num
    unfold detectPatterns
    simp only
    rw [hsim]
    simp only
    rw [if_neg (show ¬ similar.length < PATTERN_CONFIG.minEpisodes from not_lt.mpr h3)]
    split
    · rename_i hcond
      exact absurd hcond (not_lt.mpr hdw)
    · rw [hfind]
      simp only
      rw [getPattern_insertPattern db _ hfresh]
      simp only
      refine ⟨_, _, rfl, ?_, ?_, ?_⟩
      · rfl
      · exact lt_of_lt_of_le (by norm_num) hdw
      · rfl

/-- The episodes of `exDbE` as the window query returns them (newest first). -/
noncomputable def exSimC3 : List Episode := [exEpDeploy 3, exEpDeploy 2, exEpDeploy 1]

/-- Witness for C3 at a concrete store and episode. -/
theorem C3_detectPatterns_thresholds_witness :
    ∃ p db2, detectPatterns exDbE 100 (exEpDeploy 3) = some ([p], db2) ∧
      p.pattern_type = PatternType.success ∧
      0 < p.discrimination_weight ∧
      db2.patterns = exDbE.patterns ++ [p] :=
  (C3_detectPatterns_thresholds exDbE 100 (exEpDeploy 3) exSimC3 rfl).2.2
    (by simp [exSimC3])
    (by intro e he
        simp only [exSimC3, List.mem_cons, List.not_mem_nil, or_false] at he
        rcases he with rfl | rfl | rfl <;> rfl)
    rfl
    (by simp [exDbE, emptyDb])

/-! ## Claim C8: pattern uniqueness across reachable states -/

/-- The spec's uniqueness key: at most one pattern matches any given
description substring. -/
def patternKeyUnique (db : Db) : Prop :=
  ∀ s : String,
    (db.patterns.filter (fun p => likeContains p.description s)).length ≤ 1

theorem prefixCheck_append_self (n r : List Char) : prefixCheck n (n ++ r) = true := by
  induction n with
  | nil => rfl
  | cons a as ih => simp [prefixCheck, ih]

theorem infixCheck_append_self (n r : List Char) : infixCheck n (n ++ r) = true := by
  cases n with
  | nil =>
    cases r with
    | nil => rfl
    | cons b bs => rfl
  | cons a as =>
    show (prefixCheck (a :: as) (a :: (as ++ r)) || infixCheck (a :: as) (as ++ r)) = true
    have h := prefixCheck_append_self (a :: as) r
    rw [List.cons_append] at h
    rw [h]
    rfl

/-- A string `LIKE`-contains any of its prefixes. -/
theorem likeContains_data_prefix (s t : String) (r : List Char) (h : s.data = t.data ++ r) :
    likeContains s t = true := by
  unfold likeContains
  rw [h, List.map_append]
  exact infixCheck_append_self _ _

theorem likeContains_self (s : String) : likeContains s s = true :=
  likeContains_data_prefix s s [] (by simp)

/-- The detector's generated description `LIKE`-contains the operation type
it starts with. -/
theorem likeContains_left_chain (ty a b c d e : String) :
    likeContains (ty ++ a ++ b ++ c ++ d ++ e) ty = true :=
  likeContains_data_prefix _ _
    (a.data ++ (b.data ++ (c.data ++ (d.data ++ e.data)))) (by
      show ty.data ++ a.data ++ b.data ++ c.data ++ d.data ++ e.data = _
      simp [List.append_assoc])

/-- `updatePattern` never changes any description. -/
theorem updatePattern_descriptions (db : Db) (i : ℕ) (u : PatternUpdate) :
    (updatePattern db i u).patterns.map (fun p => p.description) =
      db.patterns.map (fun p => p.description) := by
  unfold updatePattern
  simp only [List.map_map]
  apply List.map_congr_left
  intro x hx
  by_cases hb : (x.id == i) = true
  · simp only [Function.comp_apply, if_pos hb]
    rfl
  · simp only [Function.comp_apply, if_neg hb]

/-- How a detector call changes the pattern table: either every description
is preserved, or — only when no existing pattern matches the operation
type — exactly one pattern whose description `LIKE`-contains the operation
type is appended. -/
theorem detectPatterns_patterns (db : Db) (now : ℤ) (ep : Episode)
    (pr : List PatternRec × Db) (h : detectPatterns db now ep = some pr) :
    pr.2.patterns.map (fun p => p.description) =
        db.patterns.map (fun p => p.description) ∨
      (findPatternByDescription db ep.operation_type = none ∧
        ∃ d, pr.2.patterns = db.patterns ++ [d] ∧
          likeContains d.description ep.operation_type = true) := by
  unfold detectPatterns at h
  simp only at h
  split at h
  · exact absurd h (by simp)
  · split at h
    · simp only [Option.some.injEq] at h
      rw [← h]
      left
      rfl
    · split at h
      · simp only [Option.some.injEq] at h
        rw [← h]
        left
        rfl
      · split at h
        · rename_i existing hfound
          split at h
          · simp only [Option.some.injEq] at h
            rw [← h]
            left
            exact updatePattern_descriptions db existing.id _
          · simp only [Option.some.injEq] at h
            rw [← h]
            left
            exact updatePattern_descriptions db existing.id _
        · rename_i hfound
          split at h
          · simp only [Option.some.injEq] at h
            rw [← h]
            right
            exact ⟨hfound, _, rfl, likeContains_left_chain _ _ _ _ _ _⟩
          · simp only [Option.some.injEq] at h
            rw [← h]
            right
            exact ⟨hfound, _, rfl, likeContains_left_chain _ _ _ _ _ _⟩

/-- How a learn call changes the pattern table: either every description is
preserved, or — only when no existing pattern matches the supplied
description — exactly one pattern carrying that description is appended. -/
theorem learnFromPattern_patterns (db : Db) (now : ℤ) (input : LearnFromPatternInput)
    (db2 : Db) (res : LearnFromPatternResult)
    (h : learnFromPattern db now input = .ok (db2, res)) :
    db2.patterns.map (fun p => p.description) =
        db.patterns.map (fun p => p.description) ∨
      (findPatternByDescription db input.pattern_description = none ∧
        ∃ d, db2.patterns = db.patterns ++ [d] ∧
          d.description = input.pattern_description) := by
  unfold learnFromPattern at h
  simp only at h
  split at h
  · exact absurd h (by simp)
  · split at h
    · exact absurd h (by simp)
    · split at h
      · rename_i existing hfound
        simp only [Except.ok.injEq, Prod.mk.injEq] at h
        rw [← h.1]
        left
        exact updatePattern_descriptions db existing.id _
      · rename_i hfound
        simp only [Except.ok.injEq, Prod.mk.injEq] at h
        rw [← h.1]
        right
        exact ⟨hfound, _, rfl, rfl⟩

/-- How recording an experience changes the pattern table. -/
theorem recordExperience_patterns (db : Db) (now : ℤ) (input : RecordExperienceInput)
    (db2 : Db) (res : RecordExperienceResult)
    (h : recordExperience db now input = some (db2, res)) :
    db2.patterns.map (fun p => p.description) =
        db.patterns.map (fun p => p.description) ∨
      ∃ ty, findPatternByDescription db ty = none ∧
        ∃ d, db2.patterns = db.patterns ++ [d] ∧
          likeContains d.description ty = true := by
  unfold recordExperience at h
  simp only at h
  split at h
  · exact absurd h (by simp)
  · split at h
    · exact absurd h (by simp)
    · split at h
      · simp only [Option.some.injEq, Prod.mk.injEq] at h
        rw [← h.1]
        left
        rfl
      · split at h
        · exact absurd h (by simp)
        · rename_i savedEpisode hsaved
          split at h
          · exact absurd h (by simp)
          · rename_i pdb2 hdp
            simp only [Option.some.injEq, Prod.mk.injEq] at h
            rw [← h.1]
            rcases detectPatterns_patterns _ _ _ _ hdp with heq | ⟨hfind, d, hps, hlike⟩
            · left
              exact heq
            · right
              exact ⟨savedEpisode.operation_type, hfind, d, hps, hlike⟩

/-- C8 (amended): in every store state reachable by record-experience and
learn-from-pattern operations, pattern descriptions are pairwise distinct —
both creation paths look up an existing pattern by description match before
inserting, and an inserted description would have matched any equal existing
one.  (The stronger per-substring uniqueness of the original claim fails:
see the counterexample.) -/
theorem C8_pattern_descriptions_distinct (db : Db) (h : Reachable db) :
    (db.patterns.map (fun p => p.description)).Nodup := by
  induction h with
  | init => simp [emptyDb]
  | record hprev hstep ih =>
    rename_i db0 db1 now input res
    rcases recordExperience_patterns _ _ _ _ _ hstep with heq | ⟨ty, hfind, d, hps, hlike⟩
    · rw [heq]
      exact ih
    · rw [hps, List.map_append, List.nodup_append]
      refine ⟨ih, List.nodup_singleton _, ?_⟩
      intro a ha hb
      simp only [List.map_cons, List.map_nil, List.mem_singleton] at hb
      subst hb
      rw [List.mem_map] at ha
      obtain ⟨q, hq, hqd⟩ := ha
      have hnone := List.find?_eq_none.mp hfind q hq
      rw [hqd] at hnone
      exact hnone hlike
  | learn hprev hstep ih =>
    rename_i db0 db1 now input res
    rcases learnFromPattern_patterns _ _ _ _ _ hstep with heq | ⟨hfind, d, hps, hdesc⟩
    · rw [heq]
      exact ih
    · rw [hps, List.map_append, List.nodup_append]
      refine ⟨ih, List.nodup_singleton _, ?_⟩
      intro a ha hb
      simp only [List.map_cons, List.map_nil, List.mem_singleton] at hb
      subst hb
      rw [List.mem_map] at ha
      obtain ⟨q, hq, hqd⟩ := ha
      have hnone := List.find?_eq_none.mp hfind q hq
      rw [hqd, hdesc] at hnone
      exact hnone (likeContains_self _)

/-- Witness for C8's amended invariant at a reachable state. -/
theorem C8_pattern_descriptions_distinct_witness :
    (emptyDb.patterns.map (fun p => p.description)).Nodup :=
  C8_pattern_descriptions_distinct emptyDb Reachable.init

/-- A failure experience of the given operation type. -/
def inzt (s : String) : RecordExperienceInput :=
  { operation_type := s, outcome := Outcome.failure }

/-- The store after one record-experience call (total by construction). -/
noncomputable def recStep (db : Db) (now : ℤ) (s : String) : Db :=
  match recordExperience db now (inzt s) with
  | some p => p.1
  | none => db

/-- The store after one learn-from-pattern call (total by construction). -/
noncomputable def learnStep (db : Db) (now : ℤ) (desc : String) : Db :=
  match learnFromPattern db now
      { pattern_description := desc, episode_ids := [1, 2, 3],
        lesson_statement := "s" } with
  | .ok p => p.1
  | .error _ => db

/-- Three failure episodes of three fresh operation types. -/
noncomputable def dbz3 : Db := recStep (recStep (recStep emptyDb 1 "ta") 2 "tb") 3 "tc"

/-- ... a lesson learned against pattern description `al` ... -/
noncomputable def dbz4 : Db := learnStep dbz3 10 "al"

/-- ... and a second one against `alpha`: the lookup for `alpha` does not
match the stored `al`, so a second pattern is inserted, yet both match the
substring `al`. -/
noncomputable def dbz5 : Db := learnStep dbz4 11 "alpha"

/-- Counterexample to C8 as stated: the reachable state `dbz5` holds two
patterns (descriptions `al` and `alpha`) that both match the description
substring `al`, so at-most-one-pattern-per-description-substring fails. -/
theorem C8_patternKeyUnique_counterexample :
    ¬ (∀ db, Reachable db → patternKeyUnique db) := by
  intro hall
  have h1 : Reachable (recStep emptyDb 1 "ta") := by
    obtain ⟨r, hr⟩ : ∃ r, recordExperience emptyDb 1 (inzt "ta") =
        some (recStep emptyDb 1 "ta", r) := ⟨_, rfl⟩
    exact Reachable.record Reachable.init hr
  have h2 : Reachable (recStep (recStep emptyDb 1 "ta") 2 "tb") := by
    obtain ⟨r, hr⟩ : ∃ r, recordExperience (recStep emptyDb 1 "ta") 2 (inzt "tb") =
        some (recStep (recStep emptyDb 1 "ta") 2 "tb", r) := ⟨_, rfl⟩
    exact Reachable.record h1 hr
  have h3 : Reachable dbz3 := by
    obtain ⟨r, hr⟩ : ∃ r, recordExperience (recStep (recStep emptyDb 1 "ta") 2 "tb") 3
        (inzt "tc") = some (dbz3, r) := ⟨_, rfl⟩
    exact Reachable.record h2 hr
  have h4 : Reachable dbz4 := by
    obtain ⟨r, hr⟩ : ∃ r, learnFromPattern dbz3 10
        { pattern_description := "al", episode_ids := [1, 2, 3],
          lesson_statement := "s" } = Except.ok (dbz4, r) := ⟨_, rfl⟩
    exact Reachable.learn h3 hr
  have h5 : Reachable dbz5 := by
    obtain ⟨r, hr⟩ : ∃ r, learnFromPattern dbz4 11
        { pattern_description := "alpha", episode_ids := [1, 2, 3],
          lesson_statement := "s" } = Except.ok (dbz5, r) := ⟨_, rfl⟩
    exact Reachable.learn h4 hr
  have hlen : (dbz5.patterns.filter
      (fun p => likeContains p.description "al")).length = 2 := rfl
  have hc := hall dbz5 h5 "al"
  rw [hlen] at hc
  omega

/-! ## Claim C10: the retention sweep -/

/-- C10: `cleanupOldData(retentionDays)` keeps exactly the episodes inside
the retention window and the patterns last seen inside twice the window,
deprecates rather than deletes lessons (ids preserved), reports the deletion
counts, and is idempotent — a second run at the same time deletes and
deprecates nothing further. -/
theorem C10_cleanupOldData_spec (db : Db) (now : ℤ) (rd : ℕ) :
    (∀ r ∈ db.episodes, (r ∈ (cleanupOldData db now rd).1.episodes ↔
        now - (rd : ℤ) * msPerDayInt ≤ r.timestamp)) ∧
    (∀ p ∈ db.patterns, (p ∈ (cleanupOldData db now rd).1.patterns ↔
        now - 2 * (rd : ℤ) * msPerDayInt ≤ p.last_seen)) ∧
    (cleanupOldData db now rd).1.lessons.map (fun l => l.id) =
      db.lessons.map (fun l => l.id) ∧
    (cleanupOldData db now rd).2.deletedEpisodes =
      db.episodes.length - (cleanupOldData db now rd).1.episodes.length ∧
    (cleanupOldData db now rd).2.deletedPatterns =
      db.patterns.length - (cleanupOldData db now rd).1.patterns.length ∧
    (cleanupOldData (cleanupOldData db now rd).1 now rd).2.deletedEpisodes = 0 ∧
    (cleanupOldData (cleanupOldData db now rd).1 now rd).2.deletedPatterns = 0 ∧
    (cleanupOldData (cleanupOldData db now rd).1 now rd).2.deprecatedLessons = 0 := by
  refine ⟨?_, ?_, ?_, rfl, rfl, ?_, ?_, ?_⟩
  · intro r hr
    constructor
    · intro h
      exact of_decide_eq_true (List.mem_filter.mp h).2
    · intro h
      exact List.mem_filter.mpr ⟨hr, decide_eq_true h⟩
  · intro p hp
    constructor
    · intro h
      exact of_decide_eq_true (List.mem_filter.mp h).2
    · intro h
      exact List.mem_filter.mpr ⟨hp, decide_eq_true h⟩
  · show (db.lessons.map _).map _ = _
    rw [List.map_map]
    apply List.map_congr_left
    intro x hx
    by_cases hs : staleLowUseLesson x now (now - (rd : ℤ) * msPerDayInt)
    · simp only [Function.comp_apply, if_pos hs]
    · simp only [Function.comp_apply, if_neg hs]
  · show (db.episodes.filter _).length - ((db.episodes.filter _).filter _).length = 0
    rw [List.filter_eq_self.mpr
      (fun a ha => (List.mem_filter.mp ha).2)]
    exact Nat.sub_self _
  · show (db.patterns.filter _).length - ((db.patterns.filter _).filter _).length = 0
    rw [List.filter_eq_self.mpr
      (fun a ha => (List.mem_filter.mp ha).2)]
    exact Nat.sub_self _
  · show ((db.lessons.map _).filter _).length = 0
    rw [List.filter_eq_nil.mpr ?h]
    · rfl
    case h =>
      intro a ha
      rw [List.mem_map] at ha
      obtain ⟨l, hl, rfl⟩ := ha
      by_cases hs : staleLowUseLesson l now (now - (rd : ℤ) * msPerDayInt)
      · rw [if_pos hs]
        intro hdec
        have h2 := of_decide_eq_true hdec
        exact absurd h2.1 (by simp)
      · rw [if_neg hs]
        intro hdec
        exact hs (of_decide_eq_true hdec)
